import Mathlib

/-!
# Verification of the Pescado chess engine (`src/lib.rs`)

A shallow embedding of the engine's data model and operations, translated
from the Rust source, together with theorems settling the frozen claims.

Modelling conventions:
* Rust `u8`/`i8`/`usize` arithmetic is modelled with `Nat`/`Int`; where the
  source performs a saturating cast (Rust float-to-int `as` casts saturate)
  the saturation is modelled explicitly.
* Methods taking `&mut self` are modelled as functions returning the new
  value; fallible ones return `Except ChessError`.
* A Rust `panic!`/`expect` abort on a reachable path is modelled by a
  distinguished result constructor where a claim depends on it; on paths
  that are provably unreachable for the inputs a claim quantifies over, the
  model returns an arbitrary harmless value (noted inline).
-/

set_option maxHeartbeats 1000000

namespace Chess

/-- Error taxonomy, from `enum ChessErrorKind`. -/
inductive ChessErrorKind
  | invalidCharacter
  | invalidString
  | indexOutOfRange
  | invalidPromotion
  | targetIsNone
  | other
deriving DecidableEq, Repr

/-- `struct ChessError(ChessErrorKind, &'static str)`. -/
structure ChessError where
  kind : ChessErrorKind
  msg : String
deriving DecidableEq, Repr

instance {α β : Type} [DecidableEq α] [DecidableEq β] : DecidableEq (Except α β) := fun a b =>
  match a, b with
  | .ok x, .ok y => decidable_of_iff (x = y) (by simp)
  | .error x, .error y => decidable_of_iff (x = y) (by simp)
  | .ok _, .error _ => isFalse (by simp)
  | .error _, .ok _ => isFalse (by simp)

/-- `enum Color`. -/
inductive Color
  | white
  | black
deriving DecidableEq, Repr

/-- `Color::opponent`. -/
def Color.opponent : Color → Color
  | .white => .black
  | .black => .white

/-- `enum PieceKind`. -/
inductive PieceKind
  | pawn
  | knight
  | bishop
  | rook
  | queen
  | king
deriving DecidableEq, Repr

/-- `PieceKind::value`. -/
def PieceKind.value : PieceKind → Int
  | .pawn => 100
  | .bishop => 300
  | .knight => 300
  | .rook => 500
  | .queen => 900
  | .king => 0

/-- `struct Piece(Color, PieceKind)`. -/
structure Piece where
  color : Color
  kind : PieceKind
deriving DecidableEq, Repr

/-- The Rust `Coordinate` enum is a `u8` in `0..64` (`a8 = 0`, `h1 = 63`). -/
structure Coordinate where
  idx : Fin 64
deriving DecidableEq, Repr

instance : Fintype Coordinate :=
  Fintype.ofBijective (fun i : Fin 64 => Coordinate.mk i)
    ⟨fun _ _ h => by cases h; rfl, fun c => ⟨c.idx, rfl⟩⟩

/-- `Coordinate::x`: file index, `index mod 8`. -/
def Coordinate.x (c : Coordinate) : Nat := c.idx.val % 8

/-- `Coordinate::y`: row index from the top of the board, `index div 8`. -/
def Coordinate.y (c : Coordinate) : Nat := c.idx.val / 8

/-- `Coordinate::try_move(dx, dy)`; `dy > 0` moves toward rank 8 (row 0). -/
def Coordinate.tryMove (c : Coordinate) (dx dy : Int) : Except ChessError Coordinate :=
  let x : Int := (c.x : Int) + dx
  if hx : x < 0 ∨ 8 ≤ x then
    .error ⟨.indexOutOfRange, "The x coordinate must be within the range [0, 7]"⟩
  else
    let y : Int := (c.y : Int) - dy
    if hy : y < 0 ∨ 8 ≤ y then
      .error ⟨.indexOutOfRange, "The y coordinate must be within the range [0, 7]."⟩
    else
      .ok ⟨⟨(y * 8 + x).toNat, by push_neg at hx hy; omega⟩⟩

/-- `struct Lan`: long-algebraic move. -/
structure Lan where
  start : Coordinate
  endc : Coordinate
  promotion : Option PieceKind
deriving DecidableEq, Repr

/-- `struct CastlingAbility`, a bitflag set over four castling rights. -/
structure CastlingAbility where
  whiteKingside : Bool
  whiteQueenside : Bool
  blackKingside : Bool
  blackQueenside : Bool
deriving DecidableEq, Repr

namespace CastlingAbility

def empty : CastlingAbility := ⟨false, false, false, false⟩

def WHITE_KINGSIDE : CastlingAbility := ⟨true, false, false, false⟩

def WHITE_QUEENSIDE : CastlingAbility := ⟨false, true, false, false⟩

def BLACK_KINGSIDE : CastlingAbility := ⟨false, false, true, false⟩

def BLACK_QUEENSIDE : CastlingAbility := ⟨false, false, false, true⟩

/-- Bitwise or of the flag sets. -/
def union (a b : CastlingAbility) : CastlingAbility :=
  ⟨a.whiteKingside || b.whiteKingside, a.whiteQueenside || b.whiteQueenside,
    a.blackKingside || b.blackKingside, a.blackQueenside || b.blackQueenside⟩

/-- Bitwise and of the flag sets. -/
def inter (a b : CastlingAbility) : CastlingAbility :=
  ⟨a.whiteKingside && b.whiteKingside, a.whiteQueenside && b.whiteQueenside,
    a.blackKingside && b.blackKingside, a.blackQueenside && b.blackQueenside⟩

/-- Bitwise xor of the flag sets. -/
def symmDiff (a b : CastlingAbility) : CastlingAbility :=
  ⟨xor a.whiteKingside b.whiteKingside, xor a.whiteQueenside b.whiteQueenside,
    xor a.blackKingside b.blackKingside, xor a.blackQueenside b.blackQueenside⟩

/-- Complement of a flag set (Rust `!`). -/
def compl (a : CastlingAbility) : CastlingAbility :=
  ⟨!a.whiteKingside, !a.whiteQueenside, !a.blackKingside, !a.blackQueenside⟩

end CastlingAbility

/-- `struct Bitboard(u64)`, modelled as its characteristic function. -/
def Bitboard := Coordinate → Bool

instance : DecidableEq Bitboard := fun a b =>
  decidable_of_iff (∀ c, a c = b c) funext_iff.symm

namespace Bitboard

def emptyBB : Bitboard := fun _ => false

def get (b : Bitboard) (c : Coordinate) : Bool := b c

def set (b : Bitboard) (c : Coordinate) (v : Bool) : Bitboard :=
  Function.update b c v

/-- Bitwise or (`BitOr for Bitboard`). -/
def union (a b : Bitboard) : Bitboard := fun c => a c || b c

/-- `Bitboard::population_count`. -/
def populationCount (b : Bitboard) : Nat :=
  ((List.finRange 64).filter (fun i => b ⟨i⟩)).length

end Bitboard

/-- `struct Board`: 64 optional pieces, modelled as a function. -/
def Board := Coordinate → Option Piece

instance : DecidableEq Board := fun a b =>
  decidable_of_iff (∀ c, a c = b c) funext_iff.symm

/-- Build a board from a length-64 list (row-major from a8); used to write
down concrete positions. Missing entries are empty squares. -/
def boardOfList (l : List (Option Piece)) : Board :=
  fun c => (l.getD c.idx.val none)

/-- Shorthand to write a concrete square from its index. -/
def sq (n : Fin 64) : Coordinate := ⟨n⟩

/-- `enum MoveModifier`. -/
inductive MoveModifier
  | castle
  | enPassant
  | promotion
deriving DecidableEq, Repr

/-- `struct MoveUndoer`: the move, the piece previously on the destination
square, and the modifier tag. -/
structure MoveUndoer where
  lan : Lan
  previous : Option Piece
  modifer : Option MoveModifier
deriving DecidableEq, Repr

namespace Board

/-- Helper for `Board::make_move`/`unmake_move` castling: the rook's start
and end squares, `(y*8+7, y*8+5)` king-side and `(y*8+0, y*8+3)` queen-side
with `y = 7` for White and `y = 0` for Black (as computed in the source). -/
def castleRookSquares (color : Color) (kingside : Bool) : Coordinate × Coordinate :=
  match color, kingside with
  | .white, true => (sq 63, sq 61)
  | .white, false => (sq 56, sq 59)
  | .black, true => (sq 7, sq 5)
  | .black, false => (sq 0, sq 3)

/-- `Board::make_move`: apply a LAN move, returning the undo record and the
new board. The `&mut self` mutation is modelled by returning the board. -/
def makeMove (b : Board) (lan : Lan) : Except ChessError (MoveUndoer × Board) :=
  let start := b lan.start
  let previous := b lan.endc
  let dx : Int := (lan.endc.x : Int) - (lan.start.x : Int)
  let dy : Int := (lan.endc.y : Int) - (lan.start.y : Int)
  match start with
  | some piece =>
    match piece.kind with
    | .pawn =>
      match lan.promotion with
      | some promotion =>
        let b := Function.update b lan.start none
        let b := Function.update b lan.endc (some ⟨piece.color, promotion⟩)
        .ok (⟨lan, previous, some .promotion⟩, b)
      | none =>
        -- "Deal with an en passant (Holy hell)."
        if dx ≠ 0 ∧ previous = none then
          let direction : Int := dy.sign
          match lan.endc.tryMove 0 direction with
          | .ok coordinate =>
            let b := Function.update b coordinate none
            let b := Function.update b lan.start none
            let b := Function.update b lan.endc start
            .ok (⟨lan, previous, some .enPassant⟩, b)
          | .error _ =>
            -- The source `.expect`s here; `tryMove_zero_sign` below shows the
            -- branch is unreachable, so the modelled result is immaterial.
            .error ⟨.other, "unreachable: en passant capture square"⟩
        else
          let b := Function.update b lan.start none
          let b := Function.update b lan.endc start
          .ok (⟨lan, previous, none⟩, b)
    | .king =>
      -- "If the king castled then make sure to also move the rook."
      if dx = 2 ∨ dx = -2 then
        let rs := castleRookSquares piece.color (0 < dx)
        let b := Function.update b rs.1 none
        let b := Function.update b rs.2 (some ⟨piece.color, .rook⟩)
        let b := Function.update b lan.start none
        let b := Function.update b lan.endc start
        .ok (⟨lan, previous, some .castle⟩, b)
      else
        let b := Function.update b lan.start none
        let b := Function.update b lan.endc start
        .ok (⟨lan, previous, none⟩, b)
    | _ =>
      if lan.promotion.isSome then
        .error ⟨.invalidPromotion, "Only pawns can be promoted."⟩
      else
        let b := Function.update b lan.start none
        let b := Function.update b lan.endc start
        .ok (⟨lan, previous, none⟩, b)
  | none => .error ⟨.targetIsNone, "Cannot move a piece that does not exist."⟩

/-- `Board::unmake_move`. -/
def unmakeMove (b : Board) (undoer : MoveUndoer) : Board :=
  let piece := b undoer.lan.endc
  let b := Function.update b undoer.lan.start piece
  let b := Function.update b undoer.lan.endc undoer.previous
  match undoer.modifer with
  | none => b
  | some modifier =>
    match piece with
    | none => b  -- source `.expect`s that the end square holds a piece
    | some piece =>
      match modifier with
      | .castle =>
        let dx : Int := (undoer.lan.endc.x : Int) - (undoer.lan.start.x : Int)
        if dx = 0 then b  -- source `unreachable!()`
        else
          let rs := castleRookSquares piece.color (0 < dx)
          let b := Function.update b rs.1 (some ⟨piece.color, .rook⟩)
          Function.update b rs.2 none
      | .enPassant =>
        let dy : Int := (undoer.lan.endc.y : Int) - (undoer.lan.start.y : Int)
        let direction : Int := dy.sign
        match undoer.lan.endc.tryMove 0 direction with
        | .ok coordinate =>
          Function.update b coordinate (some ⟨piece.color.opponent, .pawn⟩)
        | .error _ => b  -- source `.expect`s; unreachable
      | .promotion =>
        Function.update b undoer.lan.start (some ⟨piece.color, .pawn⟩)

/-- Loop body of `Board::walk_dangerously`, with `fuel` counting the
remaining iterations of `for i in 1..8` and `i` the current step. -/
def walkDangerouslyAux (b : Board) (opp : Color) (start : Coordinate) (dx dy : Int) :
    Nat → Nat → Bitboard → Bitboard
  | 0, _, dz => dz
  | fuel + 1, i, dz =>
    match start.tryMove (i * dx) (i * dy) with
    | .ok e =>
      match b e with
      | some piece =>
        let dz' := dz.set e true
        -- "The king should not be able to block attackers."
        if piece.color = opp ∧ piece.kind = .king then
          walkDangerouslyAux b opp start dx dy fuel (i + 1) dz'
        else
          dz'
      | none => walkDangerouslyAux b opp start dx dy fuel (i + 1) (dz.set e true)
    | .error _ => dz

/-- `Board::walk_dangerously`: slide from `start` marking covered squares. -/
def walkDangerously (b : Board) (dz : Bitboard) (start : Coordinate) (dx dy : Int) : Bitboard :=
  match b start with
  | some piece => walkDangerouslyAux b piece.color.opponent start dx dy 7 1 dz
  | none => dz  -- source `.expect`s that the start square holds a piece

/-- One `try_register_danger(dx, dy)` call used by the knight/king zones. -/
def registerDanger (c : Coordinate) (r : Bitboard) (o : Int × Int) : Bitboard :=
  match c.tryMove o.1 o.2 with
  | .ok e => r.set e true
  | .error _ => r

/-- `Board::generate_pawn_danger_zone`. -/
def generatePawnDangerZone (b : Board) (c : Coordinate) : Option Bitboard :=
  match b c with
  | some ⟨color, .pawn⟩ =>
    let dy : Int := match color with | .white => 1 | .black => -1
    some (registerDanger c (registerDanger c Bitboard.emptyBB (-1, dy)) (1, dy))
  | _ => none

/-- The eight knight offsets, in source order. -/
def knightOffsets : List (Int × Int) :=
  [(1, 2), (2, 1), (2, -1), (1, -2), (-1, -2), (-2, -1), (-2, 1), (-1, 2)]

/-- `Board::generate_knight_danger_zone`. -/
def generateKnightDangerZone (b : Board) (c : Coordinate) : Option Bitboard :=
  match b c with
  | some ⟨_, .knight⟩ => some (knightOffsets.foldl (registerDanger c) Bitboard.emptyBB)
  | _ => none

/-- `Board::generate_bishop_danger_zone`. -/
def generateBishopDangerZone (b : Board) (c : Coordinate) : Option Bitboard :=
  match b c with
  | some ⟨_, .bishop⟩ =>
    let r := walkDangerously b Bitboard.emptyBB c 1 1
    let r := walkDangerously b r c 1 (-1)
    let r := walkDangerously b r c (-1) (-1)
    some (walkDangerously b r c (-1) 1)
  | _ => none

/-- `Board::generate_rook_danger_zone`. -/
def generateRookDangerZone (b : Board) (c : Coordinate) : Option Bitboard :=
  match b c with
  | some ⟨_, .rook⟩ =>
    let r := walkDangerously b Bitboard.emptyBB c 0 1
    let r := walkDangerously b r c 1 0
    let r := walkDangerously b r c 0 (-1)
    some (walkDangerously b r c (-1) 0)
  | _ => none

/-- `Board::generate_queen_danger_zone`. -/
def generateQueenDangerZone (b : Board) (c : Coordinate) : Option Bitboard :=
  match b c with
  | some ⟨_, .queen⟩ =>
    let r := walkDangerously b Bitboard.emptyBB c 0 1
    let r := walkDangerously b r c 1 1
    let r := walkDangerously b r c 1 0
    let r := walkDangerously b r c 1 (-1)
    let r := walkDangerously b r c 0 (-1)
    let r := walkDangerously b r c (-1) (-1)
    let r := walkDangerously b r c (-1) 0
    some (walkDangerously b r c (-1) 1)
  | _ => none

/-- The eight king offsets, in source order. -/
def kingOffsets : List (Int × Int) :=
  [(0, 1), (1, 1), (1, 0), (1, -1), (0, -1), (-1, -1), (-1, 0), (-1, 1)]

/-- `Board::generate_king_danger_zone`. -/
def generateKingDangerZone (b : Board) (c : Coordinate) : Option Bitboard :=
  match b c with
  | some ⟨_, .king⟩ => some (kingOffsets.foldl (registerDanger c) Bitboard.emptyBB)
  | _ => none

/-- `Board::generate_danger_zone`: union of the per-piece coverage of every
piece of `color`, scanning squares in index order. -/
def generateDangerZone (b : Board) (color : Color) : Bitboard :=
  (List.finRange 64).foldl
    (fun r i =>
      let c : Coordinate := ⟨i⟩
      match b c with
      | some piece =>
        if piece.color ≠ color then r
        else
          r.union
            (match piece.kind with
             | .pawn => (generatePawnDangerZone b c).getD Bitboard.emptyBB
             | .knight => (generateKnightDangerZone b c).getD Bitboard.emptyBB
             | .bishop => (generateBishopDangerZone b c).getD Bitboard.emptyBB
             | .rook => (generateRookDangerZone b c).getD Bitboard.emptyBB
             | .queen => (generateQueenDangerZone b c).getD Bitboard.emptyBB
             | .king => (generateKingDangerZone b c).getD Bitboard.emptyBB)
      | none => r)
    Bitboard.emptyBB

/-- `Board::find_king`: first square (in index order) holding the king of
the given color. -/
def findKing (b : Board) (color : Color) : Option Coordinate :=
  ((List.finRange 64).find?
    (fun i => decide (b ⟨i⟩ = some ⟨color, PieceKind.king⟩))).map (fun i => ⟨i⟩)

end Board

/-- `struct State`: full position. -/
structure State where
  board : Board
  sideToMove : Color
  castlingAbility : Option CastlingAbility
  enPassantTarget : Option Coordinate
  halfMoves : Nat
  fullMoves : Nat
deriving DecidableEq

/-- `struct StateUndoer`: irreversible state captured by `State::make_move`. -/
structure StateUndoer where
  moveUndoer : MoveUndoer
  castlingAbility : Option CastlingAbility
  enPassantTarget : Option Coordinate
  halfMoves : Nat
deriving DecidableEq

/-- Square at row `y` (from the top), file `x`; the `% 8` only guards the
`Fin` bound and never fires at the call sites (all have `y < 8`, `x < 8`). -/
def rowSq (y x : Nat) : Coordinate := ⟨⟨(y % 8) * 8 + x % 8, by omega⟩⟩

/-- `significant_rook_index` closure in `State::make_move`: corner square
belonging to a single castling right. -/
def significantRookIndex (c : CastlingAbility) : Coordinate :=
  if c = CastlingAbility.WHITE_KINGSIDE then sq 63
  else if c = CastlingAbility.WHITE_QUEENSIDE then sq 56
  else if c = CastlingAbility.BLACK_KINGSIDE then sq 7
  else if c = CastlingAbility.BLACK_QUEENSIDE then sq 0
  else sq 0  -- source `unreachable!()`

/-- King-side flag of a color. -/
def kingSideOf : Color → CastlingAbility
  | .white => CastlingAbility.WHITE_KINGSIDE
  | .black => CastlingAbility.BLACK_KINGSIDE

/-- Queen-side flag of a color. -/
def queenSideOf : Color → CastlingAbility
  | .white => CastlingAbility.WHITE_QUEENSIDE
  | .black => CastlingAbility.BLACK_QUEENSIDE

/-- The "Walk King and check if a Rook or Queen is in its line of sight"
loop of `State::make_move`, walking `rank` from index `kx` in direction
`dirX`; `fuel` bounds the at most eight in-range steps. -/
def epDangerWalk (rank : List (Option Piece)) (currentSide : Color) (dirX : Int) :
    Nat → Int → Bool
  | 0, _ => false
  | fuel + 1, kx =>
    if kx ≤ -1 ∨ 8 ≤ kx then false
    else
      match rank.getD kx.toNat none with
      | some piece =>
        if piece.color = currentSide then
          decide (piece.kind = .rook ∨ piece.kind = .queen)
        else
          false
      | none => epDangerWalk rank currentSide dirX fuel (kx + dirX)

/-- The three castling-rights updates of `State::make_move` (king move,
rook move from its corner, rook captured on its corner), applied in source
order to the ability value. -/
def castlingAfterMove (castlingAbility : Option CastlingAbility) (piece : Piece)
    (target : Option Piece) (lan : Lan) (currentSide opponent : Color) :
    Option CastlingAbility :=
  -- "If the king moves then remove their ability to castle."
  let ca :=
    if piece.kind = .king then
      match castlingAbility with
      | some ability =>
        some (ability.inter ((kingSideOf piece.color).union (queenSideOf piece.color)).compl)
      | none => none
    else castlingAbility
  -- "Make sure that moving a rook affects the king's ability to castle."
  let kingSide := kingSideOf currentSide
  let queenSide := queenSideOf currentSide
  let ca :=
    if piece.kind = .rook then
      if lan.start = significantRookIndex kingSide then
        match ca with
        | some ability =>
          if ability.inter kingSide ≠ CastlingAbility.empty then
            some (ability.symmDiff kingSide)
          else ca
        | none => ca
      else if lan.start = significantRookIndex queenSide then
        match ca with
        | some ability =>
          if ability.inter queenSide ≠ CastlingAbility.empty then
            some (ability.symmDiff queenSide)
          else ca
        | none => ca
      else ca
    else ca
  -- "Capturing a rook on either corner should disable castling on that side."
  let kingSide := kingSideOf opponent
  let queenSide := queenSideOf opponent
  match target with
  | some ⟨_, .rook⟩ =>
    if lan.endc = significantRookIndex kingSide then
      match ca with
      | some ability =>
        if ability.inter kingSide ≠ CastlingAbility.empty then
          some (ability.symmDiff kingSide)
        else ca
      | none => ca
    else if lan.endc = significantRookIndex queenSide then
      match ca with
      | some ability =>
        if ability.inter queenSide ≠ CastlingAbility.empty then
          some (ability.symmDiff queenSide)
        else ca
      | none => ca
    else ca
  | _ => ca

/-- The discovered-check scan of `State::make_move` ("Taking en passant
could lead to a discovered check"): find the opposing king on the
double-push rank, remove the adjacent capturing pawn(s) from a copy of the
rank, and walk from the king toward the pushed pawn's file looking for a
mover rook or queen. -/
def epCaptureExposesKing (board : Board) (lan : Lan) (currentSide opponent : Color) : Bool :=
  let y : Nat := match currentSide with | .white => 4 | .black => 3
  let rank : List (Option Piece) := (List.range 8).map (fun x => board (rowSq y x))
  let kingsCoordinate : Option Coordinate :=
    (List.range 8).foldl
      (fun acc x =>
        match board (rowSq y x) with
        | some ⟨color, .king⟩ => if color = opponent then some (rowSq y x) else acc
        | _ => acc)
      none
  match kingsCoordinate with
  | none => false
  | some kingsCoordinate =>
    -- "Remove pawn from `rank` (assume opponent took en passant)."
    let x := lan.endc.x
    let rank :=
      if x < 7 then
        match rank.getD (x + 1) none with
        | some ⟨color, .pawn⟩ =>
          if color = opponent then rank.set (x + 1) none else rank
        | _ => rank
      else rank
    let rank :=
      if 0 < x then
        match rank.getD (x - 1) none with
        | some ⟨color, .pawn⟩ =>
          if color = opponent then rank.set (x - 1) none else rank
        | _ => rank
      else rank
    -- "Get direction to walk King in."
    let kingsX : Int := kingsCoordinate.x
    let dirX : Int := if x > kingsCoordinate.x then 1 else -1
    epDangerWalk rank currentSide dirX 8 (kingsX + dirX)

/-- The "enemy pawn is in position to capture en passant" test of
`State::make_move`, for one side (`dxa = -1` is the source's `left`,
`dxa = 1` its `right`). -/
def epAdjacentPawn (board : Board) (endc : Coordinate) (opponent : Color) (dxa : Int) : Bool :=
  match endc.tryMove dxa 0 with
  | .ok coordinate =>
    match board coordinate with
    | some ⟨color, .pawn⟩ => decide (color = opponent)
    | _ => false
  | .error _ => false

/-- The en-passant-target computation of `State::make_move` ("Handle
setting up a potential en passant"): the new target, starting from the
unconditional `self.en_passant_target = None`. -/
def epTargetAfter (board : Board) (lan : Lan) (piece : Piece) (currentSide opponent : Color) :
    Option Coordinate :=
  let dy : Int := (lan.endc.y : Int) - (lan.start.y : Int)
  if (dy = 2 ∨ dy = -2) ∧ piece.kind = .pawn then
    let direction : Int := -dy.sign
    match lan.start.tryMove 0 direction with
    | .error _ => none  -- source `.expect`s: a two-square pawn move can move one
    | .ok potentialEnPassantTarget =>
      -- "Only enable en_passant_target if an enemy pawn is in position to
      -- capture en passant."
      let left : Bool := epAdjacentPawn board lan.endc opponent (-1)
      let right : Bool := epAdjacentPawn board lan.endc opponent 1
      let pawns : Nat := cond left 1 0 + cond right 1 0
      if pawns = 0 then none
      else if pawns = 1 then
        -- "Taking en passant would have resulted in a discovered check;
        -- en_passant_target should be disabled."
        if epCaptureExposesKing board lan currentSide opponent then none
        else some potentialEnPassantTarget
      else some potentialEnPassantTarget
  else none

namespace State

/-- `State::make_move`. The Rust method mutates `self` field by field and
returns the undoer; the model computes each field's final value (the
sequential updates are independent: the castling stages only read/write the
ability, the en-passant stage reads the not-yet-moved board, and the board
itself is moved last). On the error paths the Rust caller would still own a
partially updated `self`, but the only error reachable before any mutation
is the empty-source one, and no caller observes the other paths. -/
def makeMove (s : State) (lan : Lan) : Except ChessError (State × StateUndoer) :=
  let currentSide := s.sideToMove
  let opponent := s.sideToMove.opponent
  match s.board lan.start with
  | none => .error ⟨.targetIsNone, "Cannot move a piece that does not exist."⟩
  | some piece =>
    let target := s.board lan.endc
    let capture := target.isSome
    match s.board.makeMove lan with
    | .error e => .error e
    | .ok (moveUndoer, board) =>
      .ok
        ({ board := board
           -- "Toggle the current side."
           sideToMove := opponent
           castlingAbility := castlingAfterMove s.castlingAbility piece target lan
             currentSide opponent
           enPassantTarget := epTargetAfter s.board lan piece currentSide opponent
           halfMoves := if capture ∨ piece.kind = .pawn then 0 else s.halfMoves + 1
           fullMoves := if currentSide = .black then s.fullMoves + 1 else s.fullMoves },
         ⟨moveUndoer, s.castlingAbility, s.enPassantTarget, s.halfMoves⟩)

/-- `State::unmake_move`. -/
def unmakeMove (s : State) (undoer : StateUndoer) : State :=
  let s := { s with board := s.board.unmakeMove undoer.moveUndoer }
  let s := { s with
    sideToMove := s.sideToMove.opponent
    castlingAbility := undoer.castlingAbility
    enPassantTarget := undoer.enPassantTarget
    halfMoves := undoer.halfMoves }
  if s.sideToMove = .black then { s with fullMoves := s.fullMoves - 1 } else s

end State

/-- `register_move` closure in `generate_pseudo_legal_pawn_moves`: a move to
the last rank expands into the four promotions. -/
def registerPawnMove (start e : Coordinate) : List Lan :=
  if e.y = 0 ∨ e.y = 7 then
    [⟨start, e, some .knight⟩, ⟨start, e, some .bishop⟩,
      ⟨start, e, some .rook⟩, ⟨start, e, some .queen⟩]
  else
    [⟨start, e, none⟩]

/-- `try_register_move` closure shared by the knight and king generators. -/
def tryRegisterMoveTo (board : Board) (opponent : Color) (start : Coordinate)
    (o : Int × Int) : List Lan :=
  match start.tryMove o.1 o.2 with
  | .ok e =>
    match board e with
    | some piece => if piece.color = opponent then [⟨start, e, none⟩] else []
    | none => [⟨start, e, none⟩]
  | .error _ => []

/-- Loop body of `State::walk` (sliding move generation); `fuel` counts the
remaining iterations of `for i in 1..8`. -/
def walkMovesAux (board : Board) (start : Coordinate) (opponent : Color) (dx dy : Int) :
    Nat → Nat → List Lan
  | 0, _ => []
  | fuel + 1, i =>
    match start.tryMove (i * dx) (i * dy) with
    | .ok e =>
      match board e with
      | some piece => if piece.color = opponent then [⟨start, e, none⟩] else []
      | none => ⟨start, e, none⟩ :: walkMovesAux board start opponent dx dy fuel (i + 1)
    | .error _ => []

/-- `State::walk`: moves pushed by one ray of a sliding piece. -/
def walkMoves (board : Board) (start : Coordinate) (opponent : Color) (dx dy : Int) : List Lan :=
  walkMovesAux board start opponent dx dy 7 1

namespace State

/-- `State::generate_pseudo_legal_pawn_moves`. -/
def generatePseudoLegalPawnMoves (s : State) (start : Coordinate) : List Lan :=
  match s.board start with
  | some ⟨.white, .pawn⟩ =>
    -- "Handle advancing one square."
    let single :=
      match start.tryMove 0 1 with
      | .ok e => if s.board e = none then registerPawnMove start e else []
      | .error _ => []
    -- "Handle advancing two squares (if the pawn has not moved before)."
    let dble :=
      if start.y = 6 then
        match start.tryMove 0 1, start.tryMove 0 2 with
        | .ok p, .ok e =>
          if s.board p = none ∧ s.board e = none then registerPawnMove start e else []
        | _, _ => []
      else []
    -- "Handle capturing to the top left."
    let capL :=
      match start.tryMove (-1) 1 with
      | .ok e => match s.board e with
        | some ⟨.black, _⟩ => registerPawnMove start e
        | _ => []
      | .error _ => []
    -- "Handle capturing to the top right."
    let capR :=
      match start.tryMove 1 1 with
      | .ok e => match s.board e with
        | some ⟨.black, _⟩ => registerPawnMove start e
        | _ => []
      | .error _ => []
    -- "Handle en passant."
    let ep :=
      if start.y = 3 then
        match s.enPassantTarget with
        | some ept =>
          (match start.tryMove (-1) 1 with
           | .ok e => if e = ept then registerPawnMove start e else []
           | .error _ => []) ++
          (match start.tryMove 1 1 with
           | .ok e => if e = ept then registerPawnMove start e else []
           | .error _ => [])
        | none => []
      else []
    single ++ dble ++ capL ++ capR ++ ep
  | some ⟨.black, .pawn⟩ =>
    let single :=
      match start.tryMove 0 (-1) with
      | .ok e => if s.board e = none then registerPawnMove start e else []
      | .error _ => []
    let dble :=
      if start.y = 1 then
        match start.tryMove 0 (-1), start.tryMove 0 (-2) with
        | .ok p, .ok e =>
          if s.board p = none ∧ s.board e = none then registerPawnMove start e else []
        | _, _ => []
      else []
    let capL :=
      match start.tryMove (-1) (-1) with
      | .ok e => match s.board e with
        | some ⟨.white, _⟩ => registerPawnMove start e
        | _ => []
      | .error _ => []
    let capR :=
      match start.tryMove 1 (-1) with
      | .ok e => match s.board e with
        | some ⟨.white, _⟩ => registerPawnMove start e
        | _ => []
      | .error _ => []
    let ep :=
      if start.y = 4 then
        match s.enPassantTarget with
        | some ept =>
          (match start.tryMove (-1) (-1) with
           | .ok e => if e = ept then registerPawnMove start e else []
           | .error _ => []) ++
          (match start.tryMove 1 (-1) with
           | .ok e => if e = ept then registerPawnMove start e else []
           | .error _ => [])
        | none => []
      else []
    single ++ dble ++ capL ++ capR ++ ep
  | _ => []

/-- `State::generate_pseudo_legal_knight_moves`. -/
def generatePseudoLegalKnightMoves (s : State) (start : Coordinate) : List Lan :=
  match s.board start with
  | some ⟨color, .knight⟩ =>
    Board.knightOffsets.foldl
      (fun acc o => acc ++ tryRegisterMoveTo s.board color.opponent start o) []
  | _ => []

/-- `State::generate_pseudo_legal_bishop_moves`. -/
def generatePseudoLegalBishopMoves (s : State) (start : Coordinate) : List Lan :=
  match s.board start with
  | some ⟨color, .bishop⟩ =>
    walkMoves s.board start color.opponent 1 1 ++
    walkMoves s.board start color.opponent 1 (-1) ++
    walkMoves s.board start color.opponent (-1) (-1) ++
    walkMoves s.board start color.opponent (-1) 1
  | _ => []

/-- `State::generate_pseudo_legal_rook_moves`. -/
def generatePseudoLegalRookMoves (s : State) (start : Coordinate) : List Lan :=
  match s.board start with
  | some ⟨color, .rook⟩ =>
    walkMoves s.board start color.opponent 0 1 ++
    walkMoves s.board start color.opponent 1 0 ++
    walkMoves s.board start color.opponent 0 (-1) ++
    walkMoves s.board start color.opponent (-1) 0
  | _ => []

/-- `State::generate_pseudo_legal_queen_moves`. -/
def generatePseudoLegalQueenMoves (s : State) (start : Coordinate) : List Lan :=
  match s.board start with
  | some ⟨color, .queen⟩ =>
    walkMoves s.board start color.opponent 0 1 ++
    walkMoves s.board start color.opponent 1 1 ++
    walkMoves s.board start color.opponent 1 0 ++
    walkMoves s.board start color.opponent 1 (-1) ++
    walkMoves s.board start color.opponent 0 (-1) ++
    walkMoves s.board start color.opponent (-1) (-1) ++
    walkMoves s.board start color.opponent (-1) 0 ++
    walkMoves s.board start color.opponent (-1) 1
  | _ => []

/-- `State::generate_pseudo_legal_king_moves` (steps, then castling). -/
def generatePseudoLegalKingMoves (s : State) (start : Coordinate) : List Lan :=
  match s.board start with
  | some ⟨color, .king⟩ =>
    let base :=
      Board.kingOffsets.foldl
        (fun acc o => acc ++ tryRegisterMoveTo s.board color.opponent start o) []
    let castles :=
      match s.castlingAbility with
      | some castlingAbility =>
        (if castlingAbility.inter (kingSideOf color) ≠ CastlingAbility.empty then
          match start.tryMove 1 0, start.tryMove 2 0 with
          | .ok p, .ok e =>
            if s.board p = none ∧ s.board e = none then [⟨start, e, none⟩] else []
          | _, _ => []
        else []) ++
        (if castlingAbility.inter (queenSideOf color) ≠ CastlingAbility.empty then
          match start.tryMove (-1) 0, start.tryMove (-2) 0, start.tryMove (-3) 0 with
          | .ok pa, .ok e, .ok pb =>
            if s.board pa = none ∧ s.board e = none ∧ s.board pb = none then
              [⟨start, e, none⟩]
            else []
          | _, _, _ => []
        else [])
      | none => []
    base ++ castles
  | _ => []

/-- `State::generate_pseudo_legal_moves`: per-square move lists (`some` for
every square holding a piece of `color`, `none` elsewhere). -/
def generatePseudoLegalMoves (s : State) (color : Color) : Coordinate → Option (List Lan) :=
  fun c =>
    match s.board c with
    | some piece =>
      if piece.color = color then
        some (match piece.kind with
          | .pawn => s.generatePseudoLegalPawnMoves c
          | .knight => s.generatePseudoLegalKnightMoves c
          | .bishop => s.generatePseudoLegalBishopMoves c
          | .rook => s.generatePseudoLegalRookMoves c
          | .queen => s.generatePseudoLegalQueenMoves c
          | .king => s.generatePseudoLegalKingMoves c)
      else none
    | none => none

end State

/-- `enum KingSafety`. -/
inductive KingSafety
  | safe
  | check
  | checkmate
  | stalemate
deriving DecidableEq, Repr

/-- `struct Analysis`. -/
structure Analysis where
  moves : Coordinate → Option (List Lan)
  dangerZone : Bitboard
  kingLocation : Coordinate
  kingSafety : KingSafety

/-- The while-loop of `State::find_pins`: walk from an attacker toward the
pin target, recording at most one same-color blocker. Returns whether the
target was reached with line of sight, and the recorded potential pin. -/
def findPinsWalk (board : Board) (color : Color) (target : Coordinate) (dx dy : Int) :
    Nat → Except ChessError Coordinate → Option Coordinate → Bool × Option Coordinate
  | 0, _, pin => (false, pin)
  | fuel + 1, step, pin =>
    match step with
    | .error _ => (false, pin)
    | .ok c =>
      let next := c.tryMove dx dy
      match board c with
      | some piece =>
        if piece.color = color then
          if target = c then (true, pin)
          else
            match pin with
            | none => findPinsWalk board color target dx dy fuel next (some c)
            | some _ => (false, pin)
        else (false, pin)
      | none =>
        if (0 < dx ∧ (target.x : Int) < c.x) ∨ (dx < 0 ∧ (c.x : Int) < target.x)
            ∨ (0 < dy ∧ (c.y : Int) < target.y) ∨ (dy < 0 ∧ (target.y : Int) < c.y) then
          (false, pin)
        else findPinsWalk board color target dx dy fuel next pin

/-- Direction selection in `State::find_pins` for an opposing slider at
`coordinate` aimed at `target`. -/
def findPinsDirection (kind : PieceKind) (coordinate target : Coordinate) : Option (Int × Int) :=
  match kind with
  | .bishop =>
    if coordinate.x = target.x ∨ coordinate.y = target.y then none
    else
      let differenceX : Int := (target.x : Int) - coordinate.x
      let differenceY : Int := (target.y : Int) - coordinate.y
      if differenceX.natAbs ≠ differenceY.natAbs then none
      else
        some (-((coordinate.x : Int) - target.x).sign, ((coordinate.y : Int) - target.y).sign)
  | .rook =>
    if coordinate.x ≠ target.x ∧ coordinate.y ≠ target.y then none
    else
      let x : Int := if coordinate.y ≠ target.y then 0
        else -((coordinate.x : Int) - target.x).sign
      let y : Int := if coordinate.x ≠ target.x then 0
        else ((coordinate.y : Int) - target.y).sign
      some (x, y)
  | .queen =>
    let x : Int := if coordinate.y ≠ target.y then 0
      else -((coordinate.x : Int) - target.x).sign
    let y : Int := if coordinate.x ≠ target.x then 0
      else ((coordinate.y : Int) - target.y).sign
    if coordinate.x ≠ target.x ∧ coordinate.y ≠ target.y then
      let differenceX : Int := (target.x : Int) - coordinate.x
      let differenceY : Int := (target.y : Int) - coordinate.y
      if differenceX.natAbs ≠ differenceY.natAbs then none
      else
        some (-((coordinate.x : Int) - target.x).sign, ((coordinate.y : Int) - target.y).sign)
    else some (x, y)
  | _ => none

namespace State

/-- `State::find_pins`: squares of the target's color absolutely pinned
against `target`. -/
def findPins (s : State) (target : Coordinate) : Option Bitboard :=
  match s.board target with
  | none => none
  | some targetPiece =>
    let color := targetPiece.color
    let opponent := color.opponent
    some ((List.finRange 64).foldl
      (fun result i =>
        let coordinate : Coordinate := ⟨i⟩
        match s.board coordinate with
        | some piece =>
          if piece.color ≠ opponent then result
          else
            match findPinsDirection piece.kind coordinate target with
            | some (dx, dy) =>
              let w := findPinsWalk s.board color target dx dy 16
                (coordinate.tryMove dx dy) none
              if w.1 then
                match w.2 with
                | some pin => result.set pin true
                | none => result
              else result
            | none => result
        | none => result)
      Bitboard.emptyBB)

/-- Attacker filter in `State::find_attackers`: the candidate move list of
an opposing piece, `none` when the piece provably cannot reach `target`. -/
def findAttackersMoveList (s : State) (target current : Coordinate) (color : Color)
    (kind : PieceKind) : Option (List Lan) :=
  match kind with
  | .pawn =>
    if current.x = target.x then none
    else if 1 < ((target.x : Int) - current.x).natAbs then none
    else
      let dy : Int := if color = .white then 1 else -1
      match current.tryMove 0 dy with
      | .ok coordinate =>
        if coordinate.y ≠ target.y then none
        else some (s.generatePseudoLegalPawnMoves current)
      | .error _ => some (s.generatePseudoLegalPawnMoves current)
  | .knight => some (s.generatePseudoLegalKnightMoves current)
  | .bishop =>
    let differenceX : Int := (target.x : Int) - current.x
    let differenceY : Int := (target.y : Int) - current.y
    if differenceX.natAbs ≠ differenceY.natAbs then none
    else some (s.generatePseudoLegalBishopMoves current)
  | .rook =>
    if current.x ≠ target.x ∧ current.y ≠ target.y then none
    else some (s.generatePseudoLegalRookMoves current)
  | .queen =>
    let differenceX : Int := (target.x : Int) - current.x
    let differenceY : Int := (target.y : Int) - current.y
    if differenceX.natAbs = differenceY.natAbs ∨ current.x = target.x ∨ current.y = target.y then
      some (s.generatePseudoLegalQueenMoves current)
    else none
  | .king => some (s.generatePseudoLegalKingMoves current)

end State

/-- Line-of-sight direction selection in `State::find_attackers`. -/
def attackerDirection (kind : PieceKind) (coordinate target : Coordinate) : Option (Int × Int) :=
  match kind with
  | .bishop =>
    some (-((coordinate.x : Int) - target.x).sign, ((coordinate.y : Int) - target.y).sign)
  | .rook =>
    let x : Int := if coordinate.y ≠ target.y then 0
      else -((coordinate.x : Int) - target.x).sign
    let y : Int := if coordinate.x ≠ target.x then 0
      else ((coordinate.y : Int) - target.y).sign
    some (x, y)
  | .queen =>
    if coordinate.x ≠ target.x ∧ coordinate.y ≠ target.y then
      some (-((coordinate.x : Int) - target.x).sign, ((coordinate.y : Int) - target.y).sign)
    else
      let x : Int := if coordinate.y ≠ target.y then 0
        else -((coordinate.x : Int) - target.x).sign
      let y : Int := if coordinate.x ≠ target.x then 0
        else ((coordinate.y : Int) - target.y).sign
      some (x, y)
  | _ => none

/-- Line-of-sight walk in `State::find_attackers`: mark empty squares from
an attacker up to (and stopping at) `target`. -/
def lineOfSightWalk (board : Board) (target : Coordinate) (dx dy : Int) :
    Nat → Except ChessError Coordinate → Bitboard → Bitboard
  | 0, _, bb => bb
  | fuel + 1, step, bb =>
    match step with
    | .error _ => bb
    | .ok c =>
      let next := c.tryMove dx dy
      let bb := if board c = none then bb.set c true else bb
      if c.x = target.x ∧ c.y = target.y then bb
      else lineOfSightWalk board target dx dy fuel next bb

namespace State

/-- `State::find_attackers`: squares attacking `target`, and the empty
squares on a sliding attacker's line of sight toward `target`. -/
def findAttackers (s : State) (target : Coordinate) : Option (Bitboard × Bitboard) :=
  match s.board target with
  | none => none
  | some targetPiece =>
    let opponent := targetPiece.color.opponent
    let attackers : List Coordinate :=
      (List.finRange 64).foldl
        (fun acc i =>
          let current : Coordinate := ⟨i⟩
          match s.board current with
          | some piece =>
            if piece.color = opponent then
              match s.findAttackersMoveList target current piece.color piece.kind with
              | some moveList =>
                acc ++ (moveList.filter (fun lan => lan.endc = target)).map (fun lan => lan.start)
              | none => acc
            else acc
          | none => acc)
        []
    let coordinates := attackers.foldl (fun bb c => bb.set c true) Bitboard.emptyBB
    let lineOfSight :=
      attackers.foldl
        (fun bb coordinate =>
          match s.board coordinate with
          | some piece =>
            match attackerDirection piece.kind coordinate target with
            | some (dx, dy) =>
              lineOfSightWalk s.board target dx dy 16 (coordinate.tryMove dx dy) bb
            | none => bb
          | none => bb)
        Bitboard.emptyBB
    some (coordinates, lineOfSight)

end State

/-- The ray bitboard built by `sanitize_pinned_bishop`/`_queen`: squares
from the king outward through the pinned piece's diagonal. -/
def rayThrough (kings : Coordinate) (dx dy : Int) : Nat → Except ChessError Coordinate → Bitboard → Bitboard
  | 0, _, bb => bb
  | fuel + 1, step, bb =>
    match step with
    | .ok target => rayThrough kings dx dy fuel (target.tryMove dx dy) (bb.set target true)
    | .error _ => bb

namespace State

/-- `State::sanitize_pinned_pawn`. -/
def sanitizePinnedPawn (s : State) (moveList : List Lan) (kingsCoordinate coordinate : Coordinate) :
    List Lan :=
  match s.board coordinate with
  | some ⟨color, .pawn⟩ =>
    if coordinate.x ≠ kingsCoordinate.x ∧ coordinate.y ≠ kingsCoordinate.y then
      -- "If a white pawn is pinned and below the king or a black pawn is
      -- pinned and above the king then it is not possible for it to capture
      -- the attacker that is pinning it."
      if (color = .white ∧ kingsCoordinate.y < coordinate.y)
          ∨ (color = .black ∧ coordinate.y < kingsCoordinate.y) then []
      else
        let dx : Int := ((coordinate.x : Int) - kingsCoordinate.x).sign
        let dy : Int := if color = .white then 1 else -1
        match coordinate.tryMove dx dy with
        | .ok target =>
          match s.board target with
          | some piece =>
            if piece.color = color.opponent then
              moveList.filter (fun lan => lan.endc = target)
            else []
          | none => []
        | .error _ => moveList  -- source leaves the list untouched when off board
    else if coordinate.y = kingsCoordinate.y then []
    else moveList.filter (fun lan => lan.endc.x = coordinate.x)
  | _ => moveList  -- source `panic!("Expected a pawn.")`

/-- `State::sanitize_pinned_bishop`. -/
def sanitizePinnedBishop (s : State) (moveList : List Lan) (kingsCoordinate coordinate : Coordinate) :
    List Lan :=
  match s.board coordinate with
  | some ⟨_, .bishop⟩ =>
    if coordinate.x = kingsCoordinate.x ∨ coordinate.y = kingsCoordinate.y then []
    else
      let dx : Int := ((coordinate.x : Int) - kingsCoordinate.x).sign
      let dy : Int := -((coordinate.y : Int) - kingsCoordinate.y).sign
      let bitboard := rayThrough kingsCoordinate dx dy 8 (.ok kingsCoordinate) Bitboard.emptyBB
      moveList.filter (fun lan => bitboard.get lan.endc)
  | _ => moveList  -- source `panic!("Expected a bishop.")`

/-- `State::sanitize_pinned_rook`. -/
def sanitizePinnedRook (s : State) (moveList : List Lan) (kingsCoordinate coordinate : Coordinate) :
    List Lan :=
  match s.board coordinate with
  | some ⟨_, .rook⟩ =>
    if coordinate.x ≠ kingsCoordinate.x ∧ coordinate.y ≠ kingsCoordinate.y then []
    else
      moveList.filter (fun lan =>
        ¬((coordinate.x = kingsCoordinate.x ∧ lan.endc.x ≠ kingsCoordinate.x)
          ∨ (coordinate.y = kingsCoordinate.y ∧ lan.endc.y ≠ kingsCoordinate.y)))
  | _ => moveList  -- source `panic!("Expected a rook.")`

/-- `State::sanitize_pinned_queen`. -/
def sanitizePinnedQueen (s : State) (moveList : List Lan) (kingsCoordinate coordinate : Coordinate) :
    List Lan :=
  match s.board coordinate with
  | some ⟨_, .queen⟩ =>
    if coordinate.x = kingsCoordinate.x ∨ coordinate.y = kingsCoordinate.y then
      moveList.filter (fun lan =>
        ¬((coordinate.x = kingsCoordinate.x ∧ lan.endc.x ≠ kingsCoordinate.x)
          ∨ (coordinate.y = kingsCoordinate.y ∧ lan.endc.y ≠ kingsCoordinate.y)))
    else
      let dx : Int := ((coordinate.x : Int) - kingsCoordinate.x).sign
      let dy : Int := -((coordinate.y : Int) - kingsCoordinate.y).sign
      let bitboard := rayThrough kingsCoordinate dx dy 8 (.ok kingsCoordinate) Bitboard.emptyBB
      moveList.filter (fun lan => bitboard.get lan.endc)
  | _ => moveList  -- source `panic!("Expected a queen.")`

end State

/-- The four castling LAN constants of `State::analyze`. -/
def WHITE_KINGSIDE_LAN : Lan := ⟨sq 60, sq 62, none⟩

def WHITE_QUEENSIDE_LAN : Lan := ⟨sq 60, sq 58, none⟩

def BLACK_KINGSIDE_LAN : Lan := ⟨sq 4, sq 6, none⟩

def BLACK_QUEENSIDE_LAN : Lan := ⟨sq 4, sq 2, none⟩

/-- Keep-predicate of the king-move sanitizing loop in `State::analyze`
(the source removes failing moves in place). -/
def kingMoveKeep (s : State) (color : Color) (coordinate : Coordinate) (dangerZone : Bitboard)
    (lan : Lan) : Bool :=
  if lan.promotion = none
      ∧ ((lan.start = sq 60 ∧ (lan.endc = sq 62 ∨ lan.endc = sq 58))
        ∨ (lan.start = sq 4 ∧ (lan.endc = sq 6 ∨ lan.endc = sq 2))) then
    -- "If the king is under attack then it should not be able to castle."
    if dangerZone.get coordinate then false
    else
      match s.castlingAbility with
      | some castlingAbility =>
        let kingSideLan := match color with
          | .white => WHITE_KINGSIDE_LAN
          | .black => BLACK_KINGSIDE_LAN
        let queenSideLan := match color with
          | .white => WHITE_QUEENSIDE_LAN
          | .black => BLACK_QUEENSIDE_LAN
        -- "Make sure the king cannot castle through a check."
        let removeKS : Bool :=
          decide (castlingAbility.inter (kingSideOf color) ≠ CastlingAbility.empty)
            && decide (lan = kingSideLan)
            && (match coordinate.tryMove 1 0, coordinate.tryMove 2 0 with
                | .ok one, .ok two => dangerZone.get one || dangerZone.get two
                | _, _ => false)
        let removeQS : Bool :=
          decide (castlingAbility.inter (queenSideOf color) ≠ CastlingAbility.empty)
            && decide (lan = queenSideLan)
            && (match coordinate.tryMove (-1) 0, coordinate.tryMove (-2) 0 with
                | .ok one, .ok two => dangerZone.get one || dangerZone.get two
                | _, _ => false)
        !(removeKS || removeQS)
      | none =>
        -- With no castling ability the source falls through to the generic
        -- danger check below.
        ¬ dangerZone.get lan.endc
  else
    -- "The king should not be able to walk into an attack."
    ¬ dangerZone.get lan.endc

/-- Keep-predicate of the in-check sanitizing loop for non-king pieces in
`State::analyze`: capture the checker, interpose, or capture the checking
pawn en passant. -/
def checkResponseKeep (s : State) (color opponent : Color) (kind : PieceKind)
    (attackers : Bitboard × Bitboard) (lan : Lan) : Bool :=
  if attackers.1.get lan.endc || attackers.2.get lan.endc then true
  else
    -- "Check if capturing en passant captures an attacker."
    match s.enPassantTarget with
    | some enPassantTarget =>
      if kind = .pawn ∧ lan.endc = enPassantTarget then
        let dy : Int := match color with | .white => -1 | .black => 1
        match enPassantTarget.tryMove 0 dy with
        | .ok coordinate =>
          attackers.1.get coordinate &&
            (match s.board coordinate with
             | some ⟨temp, .pawn⟩ => decide (temp = opponent)
             | _ => false)
        | .error _ => false
      else false
    | none => false

namespace State

/-- Per-square filtered move list of `State::analyze` (the loop mutates
`moves[index]` in place; this computes its final value). -/
def analyzeSquareMoves (s : State) (color : Color) (kingsCoordinate : Coordinate)
    (dangerZone pins : Bitboard) (attackers : Bitboard × Bitboard)
    (coordinate : Coordinate) (kind : PieceKind) (moveList : List Lan) : List Lan :=
  if pins.get coordinate then
    -- "If the king is under attack then a pinned piece cannot move."
    if dangerZone.get kingsCoordinate then []
    else
      match kind with
      | .pawn => s.sanitizePinnedPawn moveList kingsCoordinate coordinate
      | .knight => []
      | .bishop => s.sanitizePinnedBishop moveList kingsCoordinate coordinate
      | .rook => s.sanitizePinnedRook moveList kingsCoordinate coordinate
      | .queen => s.sanitizePinnedQueen moveList kingsCoordinate coordinate
      | .king => moveList  -- source `panic!`: a king cannot be pinned
  else
    match kind with
    | .king => moveList.filter (kingMoveKeep s color coordinate dangerZone)
    | _ =>
      -- "Moves only need to be sanitized if the king is under attack."
      if ¬ dangerZone.get kingsCoordinate then moveList
      else if 2 ≤ attackers.1.populationCount then []
      else moveList.filter (checkResponseKeep s color color.opponent kind attackers)

/-- Whether the square's piece lets the `can_move` flag of `State::analyze`
become true (pinned pieces and the double-check clearing `continue` without
the emptiness check; an unpinned non-king piece with the king safe sets the
flag unconditionally). -/
def analyzeSquareCanMove (s : State) (color : Color) (kingsCoordinate : Coordinate)
    (dangerZone pins : Bitboard) (attackers : Bitboard × Bitboard)
    (coordinate : Coordinate) (kind : PieceKind) (moveList : List Lan) : Bool :=
  if pins.get coordinate then false
  else
    match kind with
    | .king => !(moveList.filter (kingMoveKeep s color coordinate dangerZone)).isEmpty
    | _ =>
      if ¬ dangerZone.get kingsCoordinate then true
      else if 2 ≤ attackers.1.populationCount then false
      else !(moveList.filter (checkResponseKeep s color color.opponent kind attackers)).isEmpty

/-- `State::analyze`. When `find_king` fails the source panics (a valid
`State` always has both kings); the model returns an inert analysis. -/
def analyze (s : State) (color : Color) : Analysis :=
  match s.board.findKing color with
  | none => ⟨fun _ => none, Bitboard.emptyBB, sq 0, .safe⟩
  | some kingsCoordinate =>
    let moves := s.generatePseudoLegalMoves color
    let dangerZone := s.board.generateDangerZone color.opponent
    let pins := (s.findPins kingsCoordinate).getD Bitboard.emptyBB
    let attackers := (s.findAttackers kingsCoordinate).getD (Bitboard.emptyBB, Bitboard.emptyBB)
    let finalMoves : Coordinate → Option (List Lan) := fun c =>
      match s.board c with
      | some piece =>
        if piece.color = color then
          some (s.analyzeSquareMoves color kingsCoordinate dangerZone pins attackers c
            piece.kind ((moves c).getD []))
        else none
      | none => none
    let canMove :=
      (List.finRange 64).any (fun i =>
        let c : Coordinate := ⟨i⟩
        match s.board c with
        | some piece =>
          if piece.color = color then
            s.analyzeSquareCanMove color kingsCoordinate dangerZone pins attackers c
              piece.kind ((moves c).getD [])
          else false
        | none => false)
    let kingSafety :=
      if dangerZone.get kingsCoordinate then
        if canMove then KingSafety.check else KingSafety.checkmate
      else if !canMove then KingSafety.stalemate
      else KingSafety.safe
    ⟨finalMoves, dangerZone, kingsCoordinate, kingSafety⟩

end State

/-! ## Strings and parsing -/

/-- Rust `char::to_ascii_lowercase`/`str::to_lowercase` on the ASCII
alphabets these parsers consume. -/
def lowerChar (c : Char) : Char :=
  if 65 ≤ c.toNat ∧ c.toNat ≤ 90 then Char.ofNat (c.toNat + 32) else c

/-- ASCII upper-casing (used to state case-insensitivity). -/
def upperChar (c : Char) : Char :=
  if 97 ≤ c.toNat ∧ c.toNat ≤ 122 then Char.ofNat (c.toNat - 32) else c

/-- `str::to_lowercase` model. -/
def lowerStr (s : String) : String := ⟨s.data.map lowerChar⟩

/-- ASCII upper-casing of a string. -/
def upperStr (s : String) : String := ⟨s.data.map upperChar⟩

/-- `char::is_ascii_alphabetic`. -/
def asciiAlphabetic (c : Char) : Bool :=
  decide ((65 ≤ c.toNat ∧ c.toNat ≤ 90) ∨ (97 ≤ c.toNat ∧ c.toNat ≤ 122))

/-- `char::is_ascii_digit`. -/
def asciiDigit (c : Char) : Bool := decide (48 ≤ c.toNat ∧ c.toNat ≤ 57)

/-- `char::to_digit(10)`. -/
def digitVal (c : Char) : Option Nat :=
  if asciiDigit c then some (c.toNat - 48) else none

/-- Split a character list at every separator (separators dropped, empty
pieces kept) -- the structural core of `str::split`. -/
def splitAtSep (p : Char → Bool) : List Char → List Char → List (List Char)
  | [], acc => [acc.reverse]
  | c :: rest, acc =>
    if p c then acc.reverse :: splitAtSep p rest []
    else splitAtSep p rest (c :: acc)

/-- `str::split_whitespace`: split on whitespace runs, dropping empties. -/
def splitWhitespace (s : String) : List String :=
  ((splitAtSep Char.isWhitespace s.data []).map String.mk).filter (fun p => p ≠ "")

/-- `str::split('/')`. -/
def splitSlash (s : String) : List String :=
  (splitAtSep (fun c => c = '/') s.data []).map String.mk

/-- `str::starts_with`. -/
def strStarts (s pre : String) : Bool := pre.data.isPrefixOf s.data

/-- `usize`/`u8` `from_str` model: optional leading `+`, one or more
digits. (Rust's overflow rejection for huge literals is not modelled; no
claim depends on it.) -/
def parseUnsigned (s : String) : Option Nat :=
  let ds := match s.data with
    | '+' :: rest => rest
    | l => l
  if ds.isEmpty then none
  else if ds.all asciiDigit then
    some (ds.foldl (fun n c => n * 10 + (c.toNat - 48)) 0)
  else none

/-- `TryFrom<char> for Color`. -/
def Color.tryFromChar (value : Char) : Except ChessError Color :=
  match value with
  | 'w' => .ok .white
  | 'b' => .ok .black
  | _ => .error ⟨.invalidCharacter, "A Color could not be derived from the given character."⟩

/-- `TryFrom<&str> for Color`. -/
def Color.tryFromString (value : String) : Except ChessError Color :=
  if value.length ≠ 1 then
    .error ⟨.invalidString,
      "A Color can only be derived from a string that is one character long."⟩
  else
    match value.data with
    | [character] => Color.tryFromChar character
    | _ => .error ⟨.invalidString, "unreachable"⟩

/-- `From<Color> for &str`. -/
def Color.toStr : Color → String
  | .white => "w"
  | .black => "b"

/-- `TryFrom<char> for PieceKind` (lower-cases first). -/
def PieceKind.tryFromChar (value : Char) : Except ChessError PieceKind :=
  match lowerChar value with
  | 'p' => .ok .pawn
  | 'n' => .ok .knight
  | 'b' => .ok .bishop
  | 'r' => .ok .rook
  | 'q' => .ok .queen
  | 'k' => .ok .king
  | _ => .error ⟨.invalidCharacter, "A PieceType could not be derived from the given character."⟩

/-- `From<PieceKind> for &str`. -/
def PieceKind.toStr : PieceKind → String
  | .pawn => "p"
  | .knight => "n"
  | .bishop => "b"
  | .rook => "r"
  | .queen => "q"
  | .king => "k"

/-- `TryFrom<char> for Piece`. -/
def Piece.tryFromChar (value : Char) : Except ChessError Piece :=
  match value with
  | 'P' => .ok ⟨.white, .pawn⟩
  | 'N' => .ok ⟨.white, .knight⟩
  | 'B' => .ok ⟨.white, .bishop⟩
  | 'R' => .ok ⟨.white, .rook⟩
  | 'Q' => .ok ⟨.white, .queen⟩
  | 'K' => .ok ⟨.white, .king⟩
  | 'p' => .ok ⟨.black, .pawn⟩
  | 'n' => .ok ⟨.black, .knight⟩
  | 'b' => .ok ⟨.black, .bishop⟩
  | 'r' => .ok ⟨.black, .rook⟩
  | 'q' => .ok ⟨.black, .queen⟩
  | 'k' => .ok ⟨.black, .king⟩
  | _ => .error ⟨.invalidCharacter, "A Piece could not be derived from the given character."⟩

/-- `From<Piece> for char`. -/
def Piece.toChar : Piece → Char
  | ⟨.white, .pawn⟩ => 'P'
  | ⟨.white, .knight⟩ => 'N'
  | ⟨.white, .bishop⟩ => 'B'
  | ⟨.white, .rook⟩ => 'R'
  | ⟨.white, .queen⟩ => 'Q'
  | ⟨.white, .king⟩ => 'K'
  | ⟨.black, .pawn⟩ => 'p'
  | ⟨.black, .knight⟩ => 'n'
  | ⟨.black, .bishop⟩ => 'b'
  | ⟨.black, .rook⟩ => 'r'
  | ⟨.black, .queen⟩ => 'q'
  | ⟨.black, .king⟩ => 'k'

/-- `TryFrom<char> for CastlingAbility`. -/
def CastlingAbility.tryFromChar (value : Char) : Except ChessError CastlingAbility :=
  match value with
  | 'K' => .ok CastlingAbility.WHITE_KINGSIDE
  | 'Q' => .ok CastlingAbility.WHITE_QUEENSIDE
  | 'k' => .ok CastlingAbility.BLACK_KINGSIDE
  | 'q' => .ok CastlingAbility.BLACK_QUEENSIDE
  | _ => .error ⟨.invalidCharacter,
      "A CastlingAbility could not be derived from the given character."⟩

/-- `TryFrom<&str> for CastlingAbility`. -/
def CastlingAbility.tryFromString (value : String) : Except ChessError CastlingAbility :=
  if 5 ≤ value.length then
    .error ⟨.invalidString,
      "A CastlingAbility can only be derived from a string that is less than five characters long."⟩
  else
    match value.data.foldlM
      (fun (ability : Option CastlingAbility) character =>
        (match CastlingAbility.tryFromChar character with
         | .ok v => .ok (some (match ability with
             | some a => a.union v
             | none => v))
         | .error _ => .error (ChessError.mk .invalidString
             "A CastlingAbility could not be constructed from the given string.")
          : Except ChessError (Option CastlingAbility)))
      none with
    | .ok (some ability) => .ok ability
    | .ok none => .error ⟨.invalidString,
        "A CastlingAbility can not be constructed from an empty string."⟩
    | .error e => .error e

/-- `From<CastlingAbility> for String`: canonical `KQkq` order, `-` when
empty. -/
def CastlingAbility.toStr (value : CastlingAbility) : String :=
  let s := (if value.whiteKingside then "K" else "")
    ++ (if value.whiteQueenside then "Q" else "")
    ++ (if value.blackKingside then "k" else "")
    ++ (if value.blackQueenside then "q" else "")
  if s = "" then "-" else s

/-- Core of `TryFrom<&str> for Coordinate` once the two characters are in
hand (the string has already been lower-cased). -/
def coordOfChars (file rank : Char) : Except ChessError Coordinate :=
  if ¬(asciiAlphabetic file ∧ asciiDigit rank) then
    .error ⟨.invalidString,
      "A Coordinate can only only be derived from a string that consists of an alphabetic ASCII character followed by a numeric ASCII character."⟩
  else
    let x := file.toNat - 97
    if hx : 8 ≤ x then
      .error ⟨.invalidCharacter, "The first character should be within a-h (inclusive)."⟩
    else
      match digitVal rank with
      | none => .error ⟨.invalidCharacter, "Expected a number."⟩
      | some yv =>
        if hy : yv = 0 ∨ 8 < yv then
          .error ⟨.invalidCharacter, "The second character should be within 1-8 (inclusive)."⟩
        else
          .ok ⟨⟨(8 - yv) * 8 + x, by push_neg at hx hy; omega⟩⟩

/-- `TryFrom<&str> for Coordinate`. -/
def Coordinate.tryFromString (value : String) : Except ChessError Coordinate :=
  if value.length ≠ 2 then
    .error ⟨.invalidString,
      "A Coordinate can only be derived from a string that is two characters long."⟩
  else
    match (lowerStr value).data with
    | [file, rank] => coordOfChars file rank
    | _ => .error ⟨.invalidString, "unreachable"⟩

/-- `From<Coordinate> for &str`, as characters: the 64-entry table maps
index `n` to file `'a' + x` and rank `'8' - y`. -/
def coordChars (c : Coordinate) : Char × Char :=
  (Char.ofNat (97 + c.x), Char.ofNat (56 - c.y))

/-- `From<Coordinate> for &str`. -/
def coordString (c : Coordinate) : String := ⟨[(coordChars c).1, (coordChars c).2]⟩

/-- `TryFrom<&str> for Lan`. -/
def Lan.tryFromString (value : String) : Except ChessError Lan :=
  if value.length < 4 ∨ 5 < value.length then
    .error ⟨.invalidString,
      "A LAN can only be created from a string that is four or five characters long."⟩
  else
    match (lowerStr value).data with
    | [a, b, c, d] =>
      match Coordinate.tryFromString ⟨[a, b]⟩ with
      | .error e => .error e
      | .ok start =>
        match Coordinate.tryFromString ⟨[c, d]⟩ with
        | .error e => .error e
        | .ok endc => .ok ⟨start, endc, none⟩
    | [a, b, c, d, e] =>
      match Coordinate.tryFromString ⟨[a, b]⟩ with
      | .error er => .error er
      | .ok start =>
        match Coordinate.tryFromString ⟨[c, d]⟩ with
        | .error er => .error er
        | .ok endc =>
          match PieceKind.tryFromChar e with
          | .ok promotion => .ok ⟨start, endc, some promotion⟩
          | .error error => .error error
    | _ => .error ⟨.invalidString, "unreachable"⟩

/-- `From<Lan> for String`. -/
def lanString (value : Lan) : String :=
  coordString value.start ++ coordString value.endc ++
    (match value.promotion with
     | some promotion => promotion.toStr
     | none => "")

/-- `const STARTING_PLACEMENT`. -/
def STARTING_PLACEMENT : String := "rnbqkbnr/pppppppp/8/8/8/8/PPPPPPPP/RNBQKBNR"

/-- Run-length reach of one placement rank (`TryFrom<&str> for Placement`'s
inner loop). -/
def placementRankReach (rank : String) : Except ChessError Nat :=
  rank.data.foldlM
    (fun reach character =>
      match digitVal character with
      | some digit => .ok (reach + digit)
      | none =>
        match Piece.tryFromChar character with
        | .ok _ => .ok (reach + 1)
        | .error e => .error e)
    0

/-- `TryFrom<&str> for Placement` (a `Placement` is the validated string). -/
def Placement.tryFrom (value : String) : Except ChessError String :=
  let ranks := splitSlash value
  if ranks.length ≠ 8 then
    .error ⟨.invalidString,
      "A valid Placement must consist of eight sections separated by a forward slash."⟩
  else
    match ranks.foldlM
      (fun (_ : Unit) rank => do
        let reach ← placementRankReach rank
        if reach ≠ 8 then
          Except.error (ChessError.mk .invalidString
            "Each section of a valid Placement must add up to eight.")
        else .ok ())
      () with
    | .ok _ => .ok value
    | .error e => .error e

/-- The empty board. -/
def emptyBoard : Board := fun _ => none

/-- `From<Placement> for Board`: place pieces rank by rank. Writes that
would fall outside the array (impossible for a validated placement, where
Rust would panic) are skipped. -/
def Board.fromPlacement (value : String) : Board :=
  ((splitSlash value).foldl
    (fun (acc : Nat × Board) rank =>
      let y := acc.1
      let b :=
        (rank.data.foldl
          (fun (acc2 : Nat × Board) character =>
            match digitVal character with
            | some delta => (acc2.1 + delta, acc2.2)
            | none =>
              let x := acc2.1
              let b' :=
                if h : y * 8 + x < 64 then
                  Function.update acc2.2 ⟨⟨y * 8 + x, h⟩⟩ (Piece.tryFromChar character).toOption
                else acc2.2
              (x + 1, b'))
          (0, acc.2)).2
      (y + 1, b))
    (0, emptyBoard)).2

/-- `From<Board> for Placement`: one rank's serialization. -/
def placementRowString (b : Board) (y : Nat) : String :=
  let r :=
    (List.range 8).foldl
      (fun (acc : Nat × String) x =>
        match b (rowSq y x) with
        | some piece =>
          let s := if acc.1 ≠ 0 then acc.2.push (Char.ofNat (48 + acc.1)) else acc.2
          (0, s.push piece.toChar)
        | none => (acc.1 + 1, acc.2))
      (0, "")
  if 0 < r.1 then r.2.push (Char.ofNat (48 + r.1)) else r.2

/-- `From<Board> for Placement`. -/
def placementString (b : Board) : String :=
  String.intercalate "/" ((List.range 8).map (placementRowString b))

/-- `Board::default()` (`Board::from(Placement::default())`). -/
def Board.defaultBoard : Board := Board.fromPlacement STARTING_PLACEMENT

/-- `State::default()`. -/
def State.defaultState : State :=
  { board := Board.defaultBoard
    sideToMove := .white
    castlingAbility := some ⟨true, true, true, true⟩
    enPassantTarget := none
    halfMoves := 0
    fullMoves := 1 }

/-- `struct Fen` (the placement kept as its validated string). -/
structure Fen where
  placement : String
  sideToMove : Color
  castlingAbility : Option CastlingAbility
  enPassantTarget : Option Coordinate
  halfMoves : Nat
  fullMoves : Nat
deriving DecidableEq, Repr

/-- Outcome of `Fen::try_from`: success, an error return, or a `panic!`
(the source can abort inside the en-passant validation). -/
inductive FenParse
  | ok (fen : Fen)
  | err (e : ChessError)
  | panicked (msg : String)
deriving DecidableEq, Repr

/-- `TryFrom<&str> for Fen`, including all semantic validation. -/
def Fen.tryFrom (value : String) : FenParse :=
  let sections := splitWhitespace value
  if sections.length ≠ 6 then
    .err ⟨.invalidString, "A valid FEN must consist of six sections separated by whitespace."⟩
  else
    match Placement.tryFrom (sections.getD 0 "") with
    | .error e => .err e
    | .ok placement =>
    match Color.tryFromString (sections.getD 1 "") with
    | .error e => .err e
    | .ok sideToMove =>
    match (if sections.getD 2 "" = "-" then .ok none
           else (CastlingAbility.tryFromString (sections.getD 2 "")).map some) with
    | .error e => .err e
    | .ok castlingAbility =>
    match (if sections.getD 3 "" = "-" then .ok none
           else (Coordinate.tryFromString (sections.getD 3 "")).map some) with
    | .error e => .err e
    | .ok enPassantTarget =>
    match parseUnsigned (sections.getD 4 "") with
    | none => .err ⟨.invalidString, "Expected a number."⟩
    | some halfMoves =>
    match parseUnsigned (sections.getD 5 "") with
    | none => .err ⟨.invalidString, "Expected a number."⟩
    | some fullMoves =>
    -- "Make sure there is exactly one white and black king."
    match (sections.getD 0 "").data.foldlM
      (fun (kings : Bool × Bool) char =>
        if char = 'K' then
          if kings.1 then
            Except.error (ChessError.mk .other "A valid Fen should only have one white king.")
          else .ok (true, kings.2)
        else if char = 'k' then
          if kings.2 then
            Except.error (ChessError.mk .other "A valid Fen should only have one black king.")
          else .ok (kings.1, true)
        else .ok kings)
      (false, false) with
    | .error e => .err e
    | .ok kings =>
    if ¬(kings.1 ∧ kings.2) then
      .err ⟨.other, "Expected exactly one white and black king."⟩
    else
    let board := Board.fromPlacement placement
    -- "Make sure the castling ability adds up."
    let castlingCheck : Option ChessError :=
      match castlingAbility with
      | some ca =>
        if ca.whiteKingside || ca.whiteQueenside then
          if board (sq 60) ≠ some ⟨.white, .king⟩ then
            some ⟨.other, "The king must be in its starting square if it can castle."⟩
          else if ca.whiteKingside ∧ board (sq 63) ≠ some ⟨.white, .rook⟩ then
            some ⟨.other, "The rook is not in the correct position to castle kingside."⟩
          else if ca.whiteQueenside ∧ board (sq 56) ≠ some ⟨.white, .rook⟩ then
            some ⟨.other, "The rook is not in the correct position to castle queenside."⟩
          else none
        else none
      | none => none
    match castlingCheck with
    | some e => .err e
    | none =>
    let castlingCheckBlack : Option ChessError :=
      match castlingAbility with
      | some ca =>
        if ca.blackKingside || ca.blackQueenside then
          if board (sq 4) ≠ some ⟨.black, .king⟩ then
            some ⟨.other, "The king must be in its starting square if it can castle."⟩
          else if ca.blackKingside ∧ board (sq 7) ≠ some ⟨.black, .rook⟩ then
            some ⟨.other, "The rook is not in the correct position to castle kingside."⟩
          else if ca.blackQueenside ∧ board (sq 0) ≠ some ⟨.black, .rook⟩ then
            some ⟨.other, "The rook is not in the correct position to castle queenside."⟩
          else none
        else none
      | none => none
    match castlingCheckBlack with
    | some e => .err e
    | none =>
    -- En-passant plausibility.
    let epCheck : FenParse ⊕ Unit :=
      match enPassantTarget with
      | some enPassantTarget =>
        if enPassantTarget.y ≠ 2 ∧ enPassantTarget.y ≠ 5 then
          Sum.inl (.err ⟨.other, "An en passant target must either be in rank three or six."⟩)
        else
          let dy : Int := match sideToMove with | .white => -1 | .black => 1
          match enPassantTarget.tryMove (-1) dy with
          | .error _ => Sum.inl (.panicked
              "The en passant target should always be in position where the Coordinate below it is valid.")
          | .ok left =>
            match enPassantTarget.tryMove 1 dy with
            | .error _ => Sum.inl (.panicked
                "The en passant target should always be in position where the Coordinate above it is valid.")
            | .ok right =>
              let validAttacker :=
                (match board left with
                 | some ⟨color, .pawn⟩ => decide (color = sideToMove)
                 | _ => false) ||
                (match board right with
                 | some ⟨color, .pawn⟩ => decide (color = sideToMove)
                 | _ => false)
              if validAttacker then Sum.inr ()
              else Sum.inl (.err ⟨.other, "A pawn must be in position to capture the en passant target."⟩)
      | none => Sum.inr ()
    match epCheck with
    | Sum.inl r => r
    | Sum.inr _ =>
    -- "Make sure the other king cannot immediately be captured."
    let dangerZone := board.generateDangerZone sideToMove
    match board.findKing sideToMove.opponent with
    | none => .panicked "A valid Fen should always have one white and black king."
    | some kingsCoordinate =>
      if dangerZone.get kingsCoordinate then
        .err ⟨.other, "The opponent's king should not be under attack."⟩
      else
        .ok ⟨placement, sideToMove, castlingAbility, enPassantTarget, halfMoves, fullMoves⟩

/-- `From<&Fen> for String`. -/
def Fen.toStr (value : Fen) : String :=
  let castlingAbility := match value.castlingAbility with
    | some ca => ca.toStr
    | none => "-"
  let enPassantTarget := match value.enPassantTarget with
    | some c => coordString c
    | none => "-"
  value.placement ++ " " ++ value.sideToMove.toStr ++ " " ++ castlingAbility ++ " "
    ++ enPassantTarget ++ " " ++ toString value.halfMoves ++ " " ++ toString value.fullMoves

/-- `From<Fen> for State`. -/
def State.fromFen (value : Fen) : State :=
  { board := Board.fromPlacement value.placement
    sideToMove := value.sideToMove
    castlingAbility := value.castlingAbility
    enPassantTarget := value.enPassantTarget
    halfMoves := value.halfMoves
    fullMoves := value.fullMoves }

/-- `From<State> for Fen`. -/
def State.toFen (value : State) : Fen :=
  { placement := placementString value.board
    sideToMove := value.sideToMove
    castlingAbility := value.castlingAbility
    enPassantTarget := value.enPassantTarget
    halfMoves := value.halfMoves
    fullMoves := value.fullMoves }

/-! ## Evaluation and search -/

/-- `const CHECKMATE_EVALUATION: i16 = i16::MAX - 42`. -/
def CHECKMATE_EVALUATION : Int := 32767 - 42

/-- `enum Evaluation`. -/
inductive Evaluation
  | winner (side : Color)
  | draw
  | static (value : Int)
deriving DecidableEq, Repr

/-- `From<Evaluation> for i16`. -/
def Evaluation.toInt : Evaluation → Int
  | .winner .white => CHECKMATE_EVALUATION
  | .winner .black => -CHECKMATE_EVALUATION
  | .draw => 0
  | .static value => value

/-- `Evaluation::min`. -/
def Evaluation.minE (a b : Evaluation) : Evaluation :=
  if b.toInt < a.toInt then b else a

/-- `Evaluation::max`. -/
def Evaluation.maxE (a b : Evaluation) : Evaluation :=
  if a.toInt < b.toInt then b else a

/-- Total legal-move count of an analysis (`moves.iter().filter_map(..).fold`). -/
def Analysis.totalMoves (a : Analysis) : Nat :=
  (List.finRange 64).foldl (fun n i => n + ((a.moves ⟨i⟩).getD []).length) 0

/-- Rust's saturating float-to-`i16` cast (the `.round() as i16` of the
static score; the score itself is always an exact integer). -/
def satI16 (n : Int) : Int := max (-32768) (min 32767 n)

namespace Engine

/-- `Engine::evaluate`. The Rust `f32` scores only ever hold integers (far
below `f32` precision limits), so they are modelled as `Int`; the final
`.round() as i16` is then the saturating cast `satI16`. -/
def evaluate (state : State) : Evaluation :=
  let whiteAnalysis := state.analyze .white
  let blackAnalysis := state.analyze .black
  if whiteAnalysis.kingSafety = .checkmate then .winner .black
  else if blackAnalysis.kingSafety = .checkmate then .winner .white
  -- "Draw by stalemate."
  else if whiteAnalysis.kingSafety = .stalemate ∨ blackAnalysis.kingSafety = .stalemate then
    .draw
  -- "Draw by the seventy-five-move rule."
  else if 75 ≤ state.halfMoves then .draw
  else
    -- "Accumulate the material value for each piece."
    let material :=
      (List.finRange 64).foldl
        (fun (acc : Int × Int) i =>
          match state.board ⟨i⟩ with
          | some piece =>
            match piece.color with
            | .white => (acc.1 + piece.kind.value, acc.2)
            | .black => (acc.1, acc.2 + piece.kind.value)
          | none => acc)
        (0, 0)
    let whiteScore : Int := material.1
    let blackScore : Int := material.2
    -- "Reward each side for checking the opponent's king."
    let whiteScore := if whiteAnalysis.kingSafety = .check then whiteScore + 75 else whiteScore
    let blackScore := if blackAnalysis.kingSafety = .check then blackScore + 75 else blackScore
    -- "Reward each side for the total amount for moves they can make."
    let whiteTotalMoves : Int := whiteAnalysis.totalMoves
    let blackTotalMoves : Int := blackAnalysis.totalMoves
    let whiteScore := whiteScore + (whiteTotalMoves * 2 - blackTotalMoves)
    let blackScore := blackScore + (blackTotalMoves * 2 - whiteTotalMoves)
    -- "Reward each side for the total amount of squares they control."
    -- (`analyze(c).danger_zone` is the coverage of `c`'s opponent.)
    let whiteTotalControl : Int := blackAnalysis.dangerZone.populationCount
    let blackTotalControl : Int := whiteAnalysis.dangerZone.populationCount
    let whiteScore := whiteScore + (whiteTotalControl * 2 - blackTotalControl)
    let blackScore := blackScore + (blackTotalControl * 2 - whiteTotalControl)
    -- "Penalize each side for the amount of pieces still in their initial
    -- ranks." (rows 7/6 are ranks 1/2; rows 0/1 are ranks 8/7.)
    let initial :=
      (List.range 8).foldl
        (fun (acc : Int × Int) dx =>
          let acc := match state.board (rowSq 7 dx) with
            | some ⟨.white, _⟩ => (acc.1 + 1, acc.2)
            | _ => acc
          let acc := match state.board (rowSq 6 dx) with
            | some ⟨.white, _⟩ => (acc.1 + 1, acc.2)
            | _ => acc
          let acc := match state.board (rowSq 0 dx) with
            | some ⟨.black, _⟩ => (acc.1, acc.2 + 1)
            | _ => acc
          match state.board (rowSq 1 dx) with
          | some ⟨.black, _⟩ => (acc.1, acc.2 + 1)
          | _ => acc)
        (0, 0)
    let whiteScore := whiteScore - initial.1 * 7
    let blackScore := blackScore - initial.2 * 7
    -- "Penalize each side if the amount of half moves is approaching fifty
    -- moves."
    let halfMovesPenaltyMultiplier : Int :=
      if state.halfMoves ≤ 10 then 0
      else if state.halfMoves ≤ 25 then 1
      else if state.halfMoves ≤ 40 then 4
      else if state.halfMoves ≤ 45 then 8
      else 16
    let halfMovesPenalty : Int := (state.halfMoves : Int) * halfMovesPenaltyMultiplier
    let whiteScore := whiteScore - halfMovesPenalty
    let blackScore := blackScore - halfMovesPenalty
    .static (satI16 (whiteScore - blackScore))

end Engine

/-- `enum Score` (`cp` centipawns or `mate` in moves). -/
inductive Score
  | cp (v : Int)
  | mate (m : Int)
deriving DecidableEq, Repr

/-- Rust's saturating float-to-`i8` cast. -/
def satI8 (n : Int) : Int := max (-128) (min 127 n)

/-- The score-reporting step of `Engine::analyze` (`lib.rs:4164-4175`),
as a function of the search evaluation, the side to move of the searched
position, and the principal variation's length. `(len as f32 / 2.0).ceil()`
is exactly `⌈len/2⌉ = (len+1)/2` for every feasible length, and the `as i8`
cast saturates. -/
def Engine.analyzeScore (evaluation : Evaluation) (sideToMove : Color) (lineLength : Nat) :
    Score :=
  match evaluation with
  | .winner side =>
    -- "If the engine is getting mated use negative values for y."
    let sign : Int := if sideToMove ≠ side then -1 else 1
    -- "Convert plies to moves."
    let moves : Int := satI8 (((lineLength : Int) + 1) / 2) * sign
    .mate moves
  | _ => .cp evaluation.toInt

/-- `enum Strategy`. -/
inductive Strategy
  | maximizing
  | minimizing
deriving DecidableEq, Repr

/-- `Strategy::opposite`. -/
def Strategy.opposite : Strategy → Strategy
  | .maximizing => .minimizing
  | .minimizing => .maximizing

/-- `From<Color> for Strategy`. -/
def Strategy.fromColor : Color → Strategy
  | .white => .maximizing
  | .black => .minimizing

/-- `struct SearchNode`. -/
inductive SearchNode
  | mk (evaluation : Evaluation) (transformation : Option Lan) (child : Option SearchNode)

def SearchNode.evaluation : SearchNode → Evaluation
  | .mk e _ _ => e

def SearchNode.transformation : SearchNode → Option Lan
  | .mk _ t _ => t

def SearchNode.child : SearchNode → Option SearchNode
  | .mk _ _ c => c

/-- Move-ordering key of a capture (`900 + victim − attacker`, king
captures deranked to 1, non-captures 0). -/
def moveOrderScore (board : Board) (opponent : Color) (lan : Lan) : Nat :=
  match board lan.endc with
  | some piece =>
    if piece.color = opponent then
      match piece.kind with
      | .king => 1
      | kind =>
        (900 + kind.value - (match board lan.start with
          | some p => p.kind.value
          | none => 0)).toNat
    else 0
  | none => 0

/-- All generated moves of an analysis flattened in square order
(`analysis.moves.iter().flatten().flatten()`). -/
def Analysis.flatMoves (a : Analysis) : List Lan :=
  (List.finRange 64).foldl (fun acc i => acc ++ ((a.moves ⟨i⟩).getD [])) []

/-- Descending stable sort on ordering keys (Rust `sort_by(|a, b| b.0.cmp(&a.0))`).
When every key is equal this is the identity, so the source's
`needs_sorting` short-circuit is behaviour-preserving. -/
def sortScored (l : List (Nat × Lan)) : List (Nat × Lan) :=
  l.mergeSort (fun a b => b.1 ≤ a.1)

/-- Shared α/β loop over a move list: make each move, recurse through `qf`,
fold the evaluation, and cut off when `beta ≤ alpha`. Returns the folded
evaluation and the number of nodes searched. -/
def searchLoop (qf : State → Int → Int → Strategy → Evaluation × Nat) (s : State)
    (strategy : Strategy) : List Lan → Int → Int → Evaluation → Nat → Evaluation × Nat
  | [], _, _, evaluation, searched => (evaluation, searched)
  | lan :: rest, alpha, beta, evaluation, searched =>
    match s.makeMove lan with
    | .error _ => (evaluation, searched)  -- source `.expect`s: generated moves are valid
    | .ok (s', _) =>
      let r := qf s' alpha beta strategy.opposite
      let eval := r.1
      let searched := searched + 1 + r.2
      let score := eval.toInt
      match strategy with
      | .maximizing =>
        let evaluation := evaluation.maxE eval
        let alpha := max alpha score
        if beta ≤ alpha then (evaluation, searched)
        else searchLoop qf s strategy rest alpha beta evaluation searched
      | .minimizing =>
        let evaluation := evaluation.minE eval
        let beta := min beta score
        if beta ≤ alpha then (evaluation, searched)
        else searchLoop qf s strategy rest alpha beta evaluation searched

/-- `Engine::quiescence` (and its in-check helper `quiescence_minimax`),
with an explicit recursion `fuel`: the Rust recursion has no structural
bound (in-check nodes expand every legal move), so fuel exhaustion models
the (never observed) divergent case. -/
def Engine.quiescence : Nat → State → Int → Int → Strategy → Evaluation × Nat
  | 0, _, _, _, _ => (Evaluation.static 0, 0)
  | fuel + 1, s, alpha, beta, strategy =>
    let analysis := s.analyze s.sideToMove
    match analysis.kingSafety with
    | .checkmate => (.winner s.sideToMove.opponent, 0)
    | .stalemate => (.draw, 0)
    | .check =>
      -- `Engine::quiescence_minimax`: explore every legal move.
      let opponent := s.sideToMove.opponent
      let moves :=
        sortScored (analysis.flatMoves.map (fun lan => (moveOrderScore s.board opponent lan, lan)))
      let evaluation := match s.sideToMove with
        | .white => Evaluation.static (-32768)
        | .black => Evaluation.static 32767
      searchLoop (Engine.quiescence fuel) s strategy (moves.map (·.2)) alpha beta evaluation 0
    | .safe =>
      let evaluation := match s.sideToMove with
        | .white => Evaluation.static (-32768)
        | .black => Evaluation.static 32767
      let standingPat := Engine.evaluate s
      let score := standingPat.toInt
      let (evaluation, alpha, beta) := match strategy with
        | .maximizing => (evaluation.maxE standingPat, max alpha score, beta)
        | .minimizing => (evaluation.minE standingPat, alpha, min beta score)
      if beta ≤ alpha then (evaluation, 0)
      else
        let captures := analysis.flatMoves.filter (fun lan => (s.board lan.endc).isSome)
        let moves :=
          sortScored (captures.map (fun lan =>
            (moveOrderScore s.board s.sideToMove.opponent lan, lan)))
        if moves.isEmpty then (evaluation, 0)
        else searchLoop (Engine.quiescence fuel) s strategy (moves.map (·.2)) alpha beta evaluation 0

/-- Swap list entries `0` and `i` (`Vec::swap` on the scored moves). -/
def swapToFront (l : List (Nat × Lan)) (i : Nat) : List (Nat × Lan) :=
  match l.get? 0, l.get? i with
  | some a, some b => (l.set 0 b).set i a
  | _, _ => l

/-- The α/β loop of `Engine::minimax`, additionally tracking the best move
and child node. -/
def minimaxLoop (rec : State → Int → Int → Strategy → SearchNode × Nat) (s : State)
    (strategy : Strategy) :
    List Lan → Int → Int → Evaluation → Option Lan → Option SearchNode → Nat →
      (Evaluation × Option Lan × Option SearchNode) × Nat
  | [], _, _, evaluation, bestLan, bestChild, searched => ((evaluation, bestLan, bestChild), searched)
  | lan :: rest, alpha, beta, evaluation, bestLan, bestChild, searched =>
    match s.makeMove lan with
    | .error _ => ((evaluation, bestLan, bestChild), searched)
    | .ok (s', _) =>
      let r := rec s' alpha beta strategy.opposite
      let node := r.1
      let searched := searched + 1 + r.2
      let score := node.evaluation.toInt
      match strategy with
      | .maximizing =>
        let evaluation := evaluation.maxE node.evaluation
        let (alpha, bestLan, bestChild) :=
          if alpha < score then (score, some lan, some node) else (alpha, bestLan, bestChild)
        if beta ≤ alpha then ((evaluation, bestLan, bestChild), searched)
        else minimaxLoop rec s strategy rest alpha beta evaluation bestLan bestChild searched
      | .minimizing =>
        let evaluation := evaluation.minE node.evaluation
        let (beta, bestLan, bestChild) :=
          if score < beta then (score, some lan, some node) else (beta, bestLan, bestChild)
        if beta ≤ alpha then ((evaluation, bestLan, bestChild), searched)
        else minimaxLoop rec s strategy rest alpha beta evaluation bestLan bestChild searched

/-- Quiescence recursion fuel handed out by `Engine::minimax` at depth 0;
any bound large enough for real games works, the claims never reach it. -/
def quiescenceFuel : Nat := 128

/-- `Engine::minimax`. -/
def Engine.minimax : Nat → State → Option (List Lan) → Int → Int → Strategy → SearchNode × Nat
  | 0, s, _, alpha, beta, strategy =>
    let r := Engine.quiescence quiescenceFuel s alpha beta strategy
    (.mk r.1 none none, r.2)
  | depth + 1, s, line, alpha, beta, strategy =>
    let opponent := s.sideToMove.opponent
    let analysis := s.analyze s.sideToMove
    match analysis.kingSafety with
    | .checkmate => (.mk (.winner s.sideToMove.opponent) none none, 0)
    | .stalemate => (.mk .draw none none, 0)
    | _ =>
      -- Previous-PV move for this ply: `line.get(line.len() + 1 - depth)`;
      -- Rust `usize` wrap-around on underflow yields `None`.
      let target : Option Lan :=
        match line with
        | some l => if depth + 1 ≤ l.length + 1 then l.get? (l.length + 1 - (depth + 1)) else none
        | none => none
      let scoredBase :=
        (analysis.flatMoves.enum.map (fun il =>
          match target with
          | some t => if il.2 = t then ((65535 : Nat), il.2) else (moveOrderScore s.board opponent il.2, il.2)
          | none => (moveOrderScore s.board opponent il.2, il.2)))
      let pivot : Option Nat :=
        match target with
        | some t => (analysis.flatMoves.enum.find? (fun il => il.2 = t)).map (·.1)
        | none => none
      -- "Evaluate the previous best move at this depth first."
      let scored := match pivot with
        | some i => swapToFront scoredBase i
        | none => scoredBase
      let needsSorting := scoredBase.any (fun p => p.1 ≠ 65535 ∧ p.1 ≠ 0)
      let scored := if needsSorting then sortScored scored else scored
      let evaluation := match s.sideToMove with
        | .white => Evaluation.static (-32768)
        | .black => Evaluation.static 32767
      let r := minimaxLoop (fun st a b strat => Engine.minimax depth st line a b strat) s
        strategy (scored.map (·.2)) alpha beta evaluation none none 0
      (.mk r.1.1 r.1.2.1 r.1.2.2, r.2)

/-- `struct InfoStatistics`. -/
structure InfoStatistics where
  depth : Option Nat := none
  time : Option Nat := none
  nodes : Option Nat := none
  pv : Option (List Lan) := none
  score : Option Score := none
  currmove : Option Lan := none
  currmovenumber : Option Nat := none
  nps : Option Nat := none
deriving DecidableEq, Repr

/-- `From<Score> for String`. -/
def Score.toStr : Score → String
  | .cp v => "cp " ++ toString v
  | .mate m => "mate " ++ toString m

/-- `From<&InfoStatistics> for String`. -/
def infoString (value : InfoStatistics) : String :=
  let r := "info"
  let r := match value.depth with
    | some depth => r ++ " depth " ++ toString depth
    | none => r
  let r := match value.score with
    | some score => r ++ " " ++ score.toStr
    | none => r
  let r := match value.time with
    | some time => r ++ " time " ++ toString time
    | none => r
  let r := match value.nodes with
    | some nodes => r ++ " nodes " ++ toString nodes
    | none => r
  let r := match value.currmove with
    | some currmove => r ++ " currmove " ++ lanString currmove
    | none => r
  let r := match value.currmovenumber with
    | some n => r ++ " currmovenumber " ++ toString n
    | none => r
  let r := match value.nps with
    | some nps => r ++ " nps " ++ toString nps
    | none => r
  match value.pv with
  | some pv => pv.foldl (fun acc lan => acc ++ " " ++ lanString lan) (r ++ " pv")
  | none => r

/-- `struct Suggestion` and its `String` form (`bestmove ... [ponder ...]`). -/
structure Suggestion where
  lan : Lan
  ponder : Option Lan
deriving DecidableEq, Repr

def suggestionString (value : Suggestion) : String :=
  let r := "bestmove " ++ lanString value.lan
  match value.ponder with
  | some ponder => r ++ " ponder " ++ lanString ponder
  | none => r

/-- Collect the principal variation from a search-node chain (the
`while let Some(contents) = head` loop of `Engine::analyze`). -/
def collectLine : Option SearchNode → List Lan
  | none => []
  | some (.mk _ transformation child) =>
    match transformation with
    | some lan => lan :: collectLine child
    | none => collectLine child

/-- `Engine::analyze`: run `minimax`, reconstruct the PV, and build the
info statistics. `none` models the source's panics (depth 0, or no move
suggestion at the root). -/
def Engine.analyzeFull (s : State) (depth : Nat) (line : Option (List Lan)) :
    Option InfoStatistics :=
  if depth = 0 then none  -- source `panic!("Depth should never be zero.")`
  else
    let strategy := Strategy.fromColor s.sideToMove
    let r := Engine.minimax depth s line (-32768) 32767 strategy
    let result := r.1
    let searched := r.2
    match result.transformation with
    | none => none  -- source `.expect("There should always be a move suggestion.")`
    | some lan =>
      let pv := lan :: collectLine result.child
      let score := Engine.analyzeScore result.evaluation s.sideToMove pv.length
      some { depth := some depth, nodes := some searched, pv := some pv, score := some score }

/-- `Engine::make_sequence`. -/
def Engine.makeSequence : State → List Lan → Except ChessError State
  | state, [] => .ok state
  | state, lan :: rest =>
    let analysis := state.analyze state.sideToMove
    match analysis.moves lan.start with
    | some list =>
      if list.contains lan then
        match state.makeMove lan with
        | .ok (state', _) => Engine.makeSequence state' rest
        | .error _ =>
          -- source `.expect("The given move should always be valid.")`;
          -- unreachable: a generated move's start square holds a piece
          .error ⟨.other, "A move in the given sequence is not legal."⟩
      else .error ⟨.other, "A move in the given sequence is not legal."⟩
    | none => .error ⟨.other, "A move in the given sequence is not legal."⟩

/-- `Engine::perft`. -/
def Engine.perft : State → Nat → Nat
  | _, 0 => 1
  | s, depth + 1 =>
    let analysis := s.analyze s.sideToMove
    -- "At a depth of one, the total amount of legal moves is the perft value."
    if depth = 0 then analysis.totalMoves
    else
      analysis.flatMoves.foldl
        (fun total lan =>
          match s.makeMove lan with
          | .ok (s', _) => total + Engine.perft s' depth
          | .error _ => total)  -- source `.expect`s: generated moves are valid
        0

/-! ## Driver -/

/-- `enum GoParams`. -/
inductive GoParams
  | depth (n : Nat)
  | perft (n : Nat)
deriving DecidableEq, Repr

/-- `enum Command`. -/
inductive Command
  | uci
  | isready
  | position (state : State)
  | go (params : GoParams)
  | quit
  | d
  | flip
deriving DecidableEq

/-- Outcome of `Command::try_from`: `panicked` models a `panic!` escaping
from `Fen::try_from` during `position fen`. -/
inductive CommandParse
  | ok (command : Command)
  | err (e : ChessError)
  | panicked (msg : String)
deriving DecidableEq

/-- `u8::from_str` model (rejects values above 255). -/
def parseU8 (s : String) : Option Nat :=
  match parseUnsigned s with
  | some n => if n ≤ 255 then some n else none
  | none => none

/-- Parse a `moves <lan>...` tail (shared by both `position` forms). -/
def parseMoveSequence (sections : List String) : Except ChessError (List Lan) :=
  sections.mapM (fun l =>
    match Lan.tryFromString l with
    | .ok lan => .ok lan
    | .error _ => .error ⟨.invalidString,
        "A string in the given move sequence is not a valid Lan string."⟩)

/-- `TryFrom<&str> for Command`. -/
def Command.tryFrom (value : String) : CommandParse :=
  if value = "uci" then .ok .uci
  else if value = "isready" then .ok .isready
  else if strStarts value "position" then
    match (splitWhitespace value).drop 1 with
    | [] => .err ⟨.invalidString, "Expected <startpos | fen> subcommand."⟩
    | next :: rest =>
      if next = "startpos" then
        match rest with
        | [] => .ok (.position State.defaultState)
        | subcommand :: moves =>
          if subcommand = "moves" then
            match parseMoveSequence moves with
            | .error e => .err e
            | .ok sequence =>
              match Engine.makeSequence State.defaultState sequence with
              | .ok state => .ok (.position state)
              | .error e => .err e
          else .err ⟨.invalidString,
              "The given subcommand is not valid; expected [moves <move>...]"⟩
      else if next = "fen" then
        match rest with
        | placement :: sideToMove :: castlingAbility :: enPassantTarget :: halfMoves ::
            fullMoves :: rest2 =>
          let fenStr := placement ++ " " ++ sideToMove ++ " " ++ castlingAbility ++ " "
            ++ enPassantTarget ++ " " ++ halfMoves ++ " " ++ fullMoves
          match Fen.tryFrom fenStr with
          | .panicked m => .panicked m
          | .err _ => .err ⟨.invalidString, "The given string is not a valid Fen string."⟩
          | .ok fen =>
            let state := State.fromFen fen
            match rest2 with
            | [] => .ok (.position state)
            | subcommand :: moves =>
              if subcommand = "moves" then
                match parseMoveSequence moves with
                | .error e => .err e
                | .ok sequence =>
                  match Engine.makeSequence state sequence with
                  | .ok state' => .ok (.position state')
                  | .error e => .err e
              else .err ⟨.invalidString,
                  "The given subcommand is not valid; expected [moves <move>...]"⟩
        | _ => .err ⟨.invalidString, "Expected a valid Fen string to follow \"position fen\"."⟩
      else .err ⟨.invalidString, "The given subcommand is not valid; expected <startpos | fen>"⟩
  else if strStarts value "go" then
    match (splitWhitespace value).drop 1 with
    | [] => .err ⟨.invalidString, "Expected <depth | perft> subcommand."⟩
    | next :: rest =>
      if next = "depth" then
        match rest with
        | [] => .err ⟨.invalidString, "Expected a valid u8 string to follow \"go depth\"."⟩
        | depth :: _ =>
          match parseU8 depth with
          | some n => .ok (.go (.depth n))
          | none => .err ⟨.invalidString, "The given string is not a valid u8 string."⟩
      else if next = "perft" then
        match rest with
        | [] => .err ⟨.invalidString, "Expected a valid u8 string to follow \"go perft\"."⟩
        | depth :: _ =>
          match parseU8 depth with
          | some n => .ok (.go (.perft n))
          | none => .err ⟨.invalidString, "The given string is not a valid u8 string."⟩
      else .err ⟨.invalidString, "The given subcommand is not valid; expected <depth | perft>"⟩
  else if value = "quit" then .ok .quit
  else if value = "d" then .ok .d
  else if value = "flip" then .ok .flip
  else .err ⟨.invalidString, "Unknown command."⟩

namespace Pescado

/-- `Pescado::go_depth`: iterative deepening, emitting one info line per
iteration and a final `bestmove`. `none` models a panic inside
`Engine::analyze`. -/
def goDepth (state : State) (depth : Nat) : Option (List String) :=
  if depth = 0 then some []
  else
    match (List.range depth).foldlM
      (fun (acc : List String × Option (List Lan)) i =>
        match Engine.analyzeFull state (i + 1) acc.2 with
        | some info => some (acc.1 ++ [infoString info], info.pv)
        | none => none)
      (([] : List String), (none : Option (List Lan))) with
    | some (outs, some (lan :: rest)) =>
      some (outs ++ [suggestionString ⟨lan, rest.head?⟩])
    | _ => none  -- source `.expect`/index panic on an empty line

/-- `Pescado::go_perft`: one output string with per-root-move counts and
the total. -/
def goPerft (state : State) (depth : Nat) : List String :=
  if depth = 0 then []
  else
    let analysis := state.analyze state.sideToMove
    let entries := analysis.flatMoves.map (fun lan =>
      match state.makeMove lan with
      | .ok (s', _) => (lan, Engine.perft s' (depth - 1))
      | .error _ => (lan, 0))  -- source `.expect`s: generated moves are valid
    let total := entries.foldl (fun t e => t + e.2) 0
    let body := entries.foldl
      (fun acc e => acc ++ lanString e.1 ++ ": " ++ toString e.2 ++ "\n") ""
    [body ++ "\n" ++ "Nodes searched: " ++ toString total]

/-- `Pescado::d`: board diagram plus the current FEN. (In this source
snapshot the box-drawing characters of the frame are empty literals, so
only spacing, pieces, rank/file labels and the FEN line remain.) -/
def dOutput (state : State) : List String :=
  let body :=
    (List.range 8).foldl
      (fun acc y =>
        let row :=
          (List.range 8).foldl
            (fun racc x =>
              racc ++ " " ++ (match state.board (rowSq y x) with
                | some piece => String.mk [piece.toChar]
                | none => " ") ++ " ")
            ""
        acc ++ row ++ " " ++ toString (8 - y) ++ "\n" ++ "\n")
      "\n"
  let files :=
    (List.range 8).foldl (fun acc x => acc ++ " " ++ String.mk [Char.ofNat (97 + x)] ++ "  ") " "
  [body ++ files ++ "\n\n" ++ "Fen: " ++ (State.toFen state).toStr]

/-- `Pescado::flip`: toggle the side to move. -/
def flip (state : State) : State :=
  { state with sideToMove := state.sideToMove.opponent }

/-- `Pescado::send`: parse one command line and run it against the driver
state, returning the new state and the lines emitted through the sink.
`none` models a panic (inside `Fen::try_from` or the search). -/
def send (state : State) (command : String) : Option (State × List String) :=
  match Command.tryFrom command with
  | .ok command =>
    match command with
    | .uci => some (state, ["id name Pescado", "id author the Pescado developers", "uciok"])
    | .isready => some (state, ["readyok"])
    | .position state' => some (state', [])
    | .go params =>
      match params with
      | .depth depth =>
        match goDepth state depth with
        | some outs => some (state, outs)
        | none => none
      | .perft depth => some (state, goPerft state depth)
    | .quit => some (state, [])
    | .d => some (state, dOutput state)
    | .flip => some (Pescado.flip state, [])
  | .err error => some (state, ["Error: " ++ error.msg])
  | .panicked _ => none

end Pescado

/-! ## Basic lemmas -/

theorem Color.opponent_opponent (c : Color) : c.opponent.opponent = c := by
  cases c <;> rfl

theorem Coordinate.x_lt (c : Coordinate) : c.x < 8 :=
  Nat.mod_lt _ (by norm_num)

theorem Coordinate.y_lt (c : Coordinate) : c.y < 8 := by
  have := c.idx.isLt
  unfold Coordinate.y
  omega

theorem Coordinate.idx_eq (c : Coordinate) : (c.idx : Nat) = c.y * 8 + c.x := by
  unfold Coordinate.x Coordinate.y
  omega

theorem Coordinate.ext_xy {c d : Coordinate} (hx : c.x = d.x) (hy : c.y = d.y) : c = d := by
  obtain ⟨⟨cv, hc⟩⟩ := c
  obtain ⟨⟨dv, hd⟩⟩ := d
  have h1 := Coordinate.idx_eq ⟨⟨cv, hc⟩⟩
  have h2 := Coordinate.idx_eq ⟨⟨dv, hd⟩⟩
  simp only [Coordinate.mk.injEq, Fin.mk.injEq]
  simp only at h1 h2
  omega

/-- Characterization of a successful `try_move`. -/
theorem Coordinate.tryMove_ok_iff {c : Coordinate} {a b : Int} {e : Coordinate} :
    c.tryMove a b = .ok e ↔ ((c.x : Int) + a = e.x ∧ (c.y : Int) - b = e.y) := by
  have hex := Coordinate.x_lt e
  have hey := Coordinate.y_lt e
  unfold Coordinate.tryMove
  dsimp only
  split
  · rename_i hx
    simp only [reduceCtorEq, false_iff]
    rintro ⟨h1, -⟩
    omega
  · split
    · rename_i hx hy
      simp only [reduceCtorEq, false_iff]
      rintro ⟨-, h2⟩
      omega
    · rename_i hx hy
      push_neg at hx hy
      rw [Except.ok.injEq]
      constructor
      · rintro rfl
        have hc := Coordinate.idx_eq c
        unfold Coordinate.x Coordinate.y at *
        dsimp only at *
        constructor <;> omega
      · rintro ⟨h1, h2⟩
        have hidx := Coordinate.idx_eq e
        have hval : (((c.y : Int) - b) * 8 + ((c.x : Int) + a)).toNat = e.idx.val := by omega
        exact congrArg Coordinate.mk (Fin.ext hval)

/-- A `try_move` succeeds exactly when the target stays on the board. -/
theorem Coordinate.tryMove_isOk_iff {c : Coordinate} {a b : Int} :
    (∃ e, c.tryMove a b = .ok e) ↔
      (0 ≤ (c.x : Int) + a ∧ (c.x : Int) + a < 8 ∧ 0 ≤ (c.y : Int) - b ∧ (c.y : Int) - b < 8) := by
  unfold Coordinate.tryMove
  dsimp only
  split
  · rename_i hx
    simp only [reduceCtorEq, exists_const, exists_false, false_iff]
    intro h
    omega
  · split
    · rename_i hx hy
      simp only [reduceCtorEq, exists_const, exists_false, false_iff]
      intro h
      omega
    · rename_i hx hy
      simp only [Except.ok.injEq, exists_eq', true_iff]
      omega

theorem Bitboard.get_set_self (b : Bitboard) (c : Coordinate) (v : Bool) :
    (b.set c v).get c = v := by
  simp [Bitboard.set, Bitboard.get]

theorem Bitboard.get_set_ne (b : Bitboard) (c d : Coordinate) (v : Bool) (h : d ≠ c) :
    (b.set c v).get d = b.get d := by
  simp [Bitboard.set, Bitboard.get, Function.update_noteq h]

/-! ## Claim C8: `flip` toggles only the side to move -/

/-- C8: for every driver state, `Pescado::flip` replaces `side_to_move`
with its opponent and changes nothing else (board, castling rights,
en-passant target and both clocks are untouched), and flipping twice
restores the original state. -/
theorem claim_C8 (s : State) :
    (Pescado.flip s).sideToMove = s.sideToMove.opponent ∧
    (Pescado.flip s).board = s.board ∧
    (Pescado.flip s).castlingAbility = s.castlingAbility ∧
    (Pescado.flip s).enPassantTarget = s.enPassantTarget ∧
    (Pescado.flip s).halfMoves = s.halfMoves ∧
    (Pescado.flip s).fullMoves = s.fullMoves ∧
    Pescado.flip (Pescado.flip s) = s := by
  refine ⟨rfl, rfl, rfl, rfl, rfl, rfl, ?_⟩
  simp [Pescado.flip, Color.opponent_opponent]

/-! ## Claim C2: `Board::make_move` error conditions -/

/-- The en-passant removal square always exists: moving one step back along
the move's own rank direction stays on the board. -/
theorem tryMove_sign_ok (st en : Coordinate) :
    ∃ e, en.tryMove 0 ((en.y : Int) - st.y).sign = .ok e := by
  rw [Coordinate.tryMove_isOk_iff]
  have h1 := Coordinate.x_lt en
  have h2 := Coordinate.y_lt en
  have h3 := Coordinate.y_lt st
  rcases Int.lt_trichotomy ((en.y : Int) - st.y) 0 with h | h | h
  · rw [Int.sign_eq_neg_one_of_neg h]
    omega
  · rw [h, Int.sign_zero]
    omega
  · rw [Int.sign_eq_one_of_pos h]
    omega

/-- C2 (amended): `Board::make_move` returns `TargetIsNone` when the source
square is empty; it returns `InvalidPromotion` when a promotion is set and
the source piece is a knight, bishop, rook or queen (a king with a
promotion set is NOT rejected — see the counterexample); with an occupied
source square it succeeds in every other case. -/
theorem claim_C2 (b : Board) (lan : Lan) :
    (b lan.start = none →
      b.makeMove lan = .error ⟨.targetIsNone, "Cannot move a piece that does not exist."⟩) ∧
    (∀ piece, b lan.start = some piece →
      (piece.kind = .knight ∨ piece.kind = .bishop ∨ piece.kind = .rook ∨ piece.kind = .queen) →
      lan.promotion.isSome = true →
      b.makeMove lan = .error ⟨.invalidPromotion, "Only pawns can be promoted."⟩) ∧
    (∀ piece, b lan.start = some piece →
      (piece.kind = .pawn ∨ piece.kind = .king ∨ lan.promotion = none) →
      ∃ u b', b.makeMove lan = .ok (u, b')) := by
  refine ⟨?_, ?_, ?_⟩
  · intro h
    unfold Board.makeMove
    dsimp only
    rw [h]
  · rintro ⟨pc, pk⟩ h hk hp
    unfold Board.makeMove
    dsimp only
    rw [h]
    rcases hk with h' | h' | h' | h' <;> subst h' <;> simp [hp]
  · rintro ⟨pc, pk⟩ h hk
    unfold Board.makeMove
    dsimp only
    rw [h]
    cases pk
    case pawn =>
      dsimp only
      match hpr : lan.promotion with
      | some promotion => exact ⟨_, _, rfl⟩
      | none =>
        dsimp only
        split
        · obtain ⟨e, he⟩ := tryMove_sign_ok lan.start lan.endc
          rw [he]
          exact ⟨_, _, rfl⟩
        · exact ⟨_, _, rfl⟩
    case king =>
      dsimp only
      split
      · exact ⟨_, _, rfl⟩
      · exact ⟨_, _, rfl⟩
    case knight =>
      rcases hk with h' | h' | h'
      · simp at h'
      · simp at h'
      · dsimp only
        rw [h']
        exact ⟨_, _, rfl⟩
    case bishop =>
      rcases hk with h' | h' | h'
      · simp at h'
      · simp at h'
      · dsimp only
        rw [h']
        exact ⟨_, _, rfl⟩
    case rook =>
      rcases hk with h' | h' | h'
      · simp at h'
      · simp at h'
      · dsimp only
        rw [h']
        exact ⟨_, _, rfl⟩
    case queen =>
      rcases hk with h' | h' | h'
      · simp at h'
      · simp at h'
      · dsimp only
        rw [h']
        exact ⟨_, _, rfl⟩

/-- A lone white king on e1. -/
def c2CounterBoard : Board := fun c => if c = sq 60 then some ⟨.white, .king⟩ else none

/-- The move `e1e2q`: a king move with a promotion piece set. -/
def c2CounterLan : Lan := ⟨sq 60, sq 52, some .queen⟩

/-- C2 counterexample: a king move with a promotion piece set succeeds,
although the claim demands an `InvalidPromotion` error for every non-pawn
move with a promotion set. -/
theorem claim_C2_counterexample :
    c2CounterBoard c2CounterLan.start = some ⟨.white, .king⟩ ∧
    c2CounterLan.promotion = some .queen ∧
    (Board.makeMove c2CounterBoard c2CounterLan).isOk = true := by
  decide

/-- A lone white knight on b1. -/
def c2KnightBoard : Board := fun c => if c = sq 57 then some ⟨.white, .knight⟩ else none

/-- A lone white pawn on e2. -/
def c2PawnBoard : Board := fun c => if c = sq 52 then some ⟨.white, .pawn⟩ else none

/-- C2 witness: the three cases of `claim_C2` at concrete inputs. -/
theorem claim_C2_witness :
    Board.makeMove emptyBoard ⟨sq 52, sq 36, none⟩ =
      .error ⟨.targetIsNone, "Cannot move a piece that does not exist."⟩ ∧
    Board.makeMove c2KnightBoard ⟨sq 57, sq 40, some .queen⟩ =
      .error ⟨.invalidPromotion, "Only pawns can be promoted."⟩ ∧
    (∃ u b', Board.makeMove c2PawnBoard ⟨sq 52, sq 44, none⟩ = .ok (u, b')) :=
  ⟨(claim_C2 emptyBoard ⟨sq 52, sq 36, none⟩).1 rfl,
   (claim_C2 c2KnightBoard ⟨sq 57, sq 40, some .queen⟩).2.1 ⟨.white, .knight⟩ (by decide)
     (Or.inl rfl) rfl,
   (claim_C2 c2PawnBoard ⟨sq 52, sq 44, none⟩).2.2 ⟨.white, .pawn⟩ (by decide) (Or.inl rfl)⟩

/-! ## Claim C4: `Fen::try_from` validation -/

/-- C4: the claim says `Fen::try_from` accepts every otherwise-valid
six-field FEN whose en-passant target has an adjacent capturing pawn of the
side to move. But for a target on the a-file (or h-file) the validation
calls `try_move(-1, dy)` (resp. `(1, dy)`) and `.expect`s the result, which
panics: the position after `1. b4 a5 2. b5 a5a7?? — concretely, after
Black's double push `a7a5` answered by a white pawn on b5 — crashes the
parser instead of being accepted. This evaluates the model at that input:
the source's own `.expect` message documents the violated assumption. -/
theorem claim_C4 :
    Fen.tryFrom "rnbqkbnr/1ppppppp/8/pP6/8/8/P1PPPPPP/RNBQKBNR w KQkq a6 0 3" =
      .panicked
        "The en passant target should always be in position where the Coordinate below it is valid." := by
  decide

/-! ## Claim C9: `Pescado::send` error handling -/

/-- C9 counterexample: an invalid FEN inside a `position fen` command does
not always produce an error line. With en-passant target a6 and no
capturing pawn, `Fen::try_from`'s validation probes the square beside the
target, goes off the a-file, and panics through its `.expect` — the panic
escapes `Command::try_from` and `Pescado::send`, so no `Error:` line is
emitted and the driver dies (modelled as `send = none`). -/
theorem claim_C9_counterexample :
    Command.tryFrom "position fen 4k3/8/8/8/8/8/8/4K3 w - a6 0 1" =
      .panicked
        "The en passant target should always be in position where the Coordinate below it is valid." ∧
    Pescado.send State.defaultState "position fen 4k3/8/8/8/8/8/8/4K3 w - a6 0 1" = none := by
  decide

/-- C9 (amended): every input line that `Command::try_from` rejects with an
error (unknown commands, syntactically invalid FENs that the FEN validator
rejects rather than panics on, illegal or unparsable move sequences,
invalid `go` arguments) makes `Pescado::send` emit exactly one
`Error: <message>` line and leave the driver's position unchanged — no
search starts and no position change happens; but an input line whose
embedded FEN makes `Fen::try_from` panic kills the driver instead: `send`
emits nothing (modelled as `none`). -/
theorem claim_C9 (s : State) (line : String) :
    (∀ e, Command.tryFrom line = .err e →
      Pescado.send s line = some (s, ["Error: " ++ e.msg])) ∧
    (∀ m, Command.tryFrom line = .panicked m → Pescado.send s line = none) := by
  constructor
  · intro e h
    unfold Pescado.send
    rw [h]
  · intro m h
    unfold Pescado.send
    rw [h]

/-- C9 witness: invalid `go` arguments and an illegal move in a `position`
command each produce a single error line and leave the position unchanged. -/
theorem claim_C9_witness :
    Command.tryFrom "go depth x" =
      .err ⟨.invalidString, "The given string is not a valid u8 string."⟩ ∧
    Pescado.send State.defaultState "go depth x" =
      some (State.defaultState, ["Error: The given string is not a valid u8 string."]) ∧
    Command.tryFrom "position startpos moves e2e5" =
      .err ⟨.other, "A move in the given sequence is not legal."⟩ ∧
    Pescado.send State.defaultState "position startpos moves e2e5" =
      some (State.defaultState, ["Error: A move in the given sequence is not legal."]) :=
  ⟨by decide,
   (claim_C9 State.defaultState "go depth x").1 ⟨.invalidString,
     "The given string is not a valid u8 string."⟩ (by decide),
   by decide,
   (claim_C9 State.defaultState "position startpos moves e2e5").1 ⟨.other,
     "A move in the given sequence is not legal."⟩ (by decide)⟩

/-! ## Claim C7: mate-score reporting -/

/-- C7 counterexample: at principal-variation length 255 (the maximum a
`go depth 255` search can produce) the `as i8` cast saturates, so the
reported magnitude is 127, not `ceil(255/2) = 128` as the claim demands. -/
theorem claim_C7_counterexample :
    Engine.analyzeScore (.winner .white) .white 255 = .mate 127 ∧
    Engine.analyzeScore (.winner .white) .white 255 ≠ .mate 128 := by
  decide

/-- C7 (amended): when the evaluation is `Winner(side)`, the reported score
is `mate m` with magnitude `min 127 ⌈pv_length / 2⌉` (the saturating `i8`
cast caps it at 127), and `m` is negative exactly when the side to move is
not the winning side. -/
theorem claim_C7 (side sideToMove : Color) (len : Nat) (h : 1 ≤ len) :
    ∃ m : Int, Engine.analyzeScore (.winner side) sideToMove len = .mate m ∧
      m.natAbs = min 127 ((len + 1) / 2) ∧ (m < 0 ↔ sideToMove ≠ side) := by
  unfold Engine.analyzeScore satI8
  dsimp only
  refine ⟨_, rfl, ?_, ?_⟩ <;> by_cases hs : sideToMove = side <;> simp [hs] <;> omega

/-- C7 witness: a mate found on a three-ply principal variation for the
side that is losing reports `mate -2`. -/
theorem claim_C7_witness :
    1 ≤ 3 ∧ ∃ m : Int, Engine.analyzeScore (.winner .white) .black 3 = .mate m ∧
      m.natAbs = min 127 ((3 + 1) / 2) ∧ (m < 0 ↔ (Color.black ≠ Color.white)) :=
  ⟨by decide, claim_C7 .white .black 3 (by decide)⟩

/-! ## Claim C10: LAN serialize/parse roundtrip -/

/-- Parsing the (lower-cased) serialized form of a coordinate returns it. -/
theorem coordParse_roundtrip (c : Coordinate) :
    Coordinate.tryFromString ⟨[lowerChar (coordChars c).1, lowerChar (coordChars c).2]⟩ =
      .ok c := by
  revert c; decide

/-- Parsing the upper-cased serialized form of a coordinate returns it. -/
theorem coordParse_roundtrip_upper (c : Coordinate) :
    Coordinate.tryFromString
      ⟨[lowerChar (upperChar (coordChars c).1), lowerChar (upperChar (coordChars c).2)]⟩ =
      .ok c := by
  revert c; decide

/-- `Lan::try_from` on a four-character string parses the two squares. -/
theorem lanParse_data4 (s4 : String) (f1 r1 f2 r2 : Char) (hd : s4.data = [f1, r1, f2, r2])
    (st en : Coordinate)
    (h1 : Coordinate.tryFromString ⟨[lowerChar f1, lowerChar r1]⟩ = .ok st)
    (h2 : Coordinate.tryFromString ⟨[lowerChar f2, lowerChar r2]⟩ = .ok en) :
    Lan.tryFromString s4 = .ok ⟨st, en, none⟩ := by
  have hlen : s4.length = 4 := by
    rw [show s4.length = s4.data.length from rfl, hd]; rfl
  unfold Lan.tryFromString
  rw [if_neg (by omega : ¬(s4.length < 4 ∨ 5 < s4.length))]
  have hld : (lowerStr s4).data = [lowerChar f1, lowerChar r1, lowerChar f2, lowerChar r2] := by
    simp [lowerStr, hd]
  rw [hld]
  dsimp only
  rw [h1]
  dsimp only
  rw [h2]

/-- `Lan::try_from` on a five-character string also parses the promotion. -/
theorem lanParse_data5 (s5 : String) (f1 r1 f2 r2 e5 : Char)
    (hd : s5.data = [f1, r1, f2, r2, e5]) (st en : Coordinate) (k : PieceKind)
    (h1 : Coordinate.tryFromString ⟨[lowerChar f1, lowerChar r1]⟩ = .ok st)
    (h2 : Coordinate.tryFromString ⟨[lowerChar f2, lowerChar r2]⟩ = .ok en)
    (h3 : PieceKind.tryFromChar (lowerChar e5) = .ok k) :
    Lan.tryFromString s5 = .ok ⟨st, en, some k⟩ := by
  have hlen : s5.length = 5 := by
    rw [show s5.length = s5.data.length from rfl, hd]; rfl
  unfold Lan.tryFromString
  rw [if_neg (by omega : ¬(s5.length < 4 ∨ 5 < s5.length))]
  have hld : (lowerStr s5).data =
      [lowerChar f1, lowerChar r1, lowerChar f2, lowerChar r2, lowerChar e5] := by
    simp [lowerStr, hd]
  rw [hld]
  dsimp only
  rw [h1]
  dsimp only
  rw [h2]
  dsimp only
  rw [h3]

/-- C10: serializing any LAN move and parsing it back yields the original
move (start, end and optional promotion), and parsing the fully
upper-cased serialization also yields it, since the parser lower-cases its
input before interpreting it. -/
theorem claim_C10 :
    (∀ lan : Lan, Lan.tryFromString (lanString lan) = .ok lan) ∧
    (∀ lan : Lan, Lan.tryFromString (upperStr (lanString lan)) = .ok lan) := by
  constructor
  · rintro ⟨st, en, p⟩
    match p with
    | none =>
      exact lanParse_data4 _ _ _ _ _
        (by simp [lanString, coordString, String.data_append]) st en
        (coordParse_roundtrip st) (coordParse_roundtrip en)
    | some k =>
      cases k
      · exact lanParse_data5 _ _ _ _ _ 'p'
          (by simp [lanString, coordString, String.data_append, PieceKind.toStr]) st en _
          (coordParse_roundtrip st) (coordParse_roundtrip en) (by decide)
      · exact lanParse_data5 _ _ _ _ _ 'n'
          (by simp [lanString, coordString, String.data_append, PieceKind.toStr]) st en _
          (coordParse_roundtrip st) (coordParse_roundtrip en) (by decide)
      · exact lanParse_data5 _ _ _ _ _ 'b'
          (by simp [lanString, coordString, String.data_append, PieceKind.toStr]) st en _
          (coordParse_roundtrip st) (coordParse_roundtrip en) (by decide)
      · exact lanParse_data5 _ _ _ _ _ 'r'
          (by simp [lanString, coordString, String.data_append, PieceKind.toStr]) st en _
          (coordParse_roundtrip st) (coordParse_roundtrip en) (by decide)
      · exact lanParse_data5 _ _ _ _ _ 'q'
          (by simp [lanString, coordString, String.data_append, PieceKind.toStr]) st en _
          (coordParse_roundtrip st) (coordParse_roundtrip en) (by decide)
      · exact lanParse_data5 _ _ _ _ _ 'k'
          (by simp [lanString, coordString, String.data_append, PieceKind.toStr]) st en _
          (coordParse_roundtrip st) (coordParse_roundtrip en) (by decide)
  · rintro ⟨st, en, p⟩
    match p with
    | none =>
      exact lanParse_data4 _ _ _ _ _
        (by simp [upperStr, lanString, coordString, String.data_append]) st en
        (coordParse_roundtrip_upper st) (coordParse_roundtrip_upper en)
    | some k =>
      cases k
      · exact lanParse_data5 _ _ _ _ _ (upperChar 'p')
          (by simp [upperStr, lanString, coordString, String.data_append, PieceKind.toStr]) st en _
          (coordParse_roundtrip_upper st) (coordParse_roundtrip_upper en) (by decide)
      · exact lanParse_data5 _ _ _ _ _ (upperChar 'n')
          (by simp [upperStr, lanString, coordString, String.data_append, PieceKind.toStr]) st en _
          (coordParse_roundtrip_upper st) (coordParse_roundtrip_upper en) (by decide)
      · exact lanParse_data5 _ _ _ _ _ (upperChar 'b')
          (by simp [upperStr, lanString, coordString, String.data_append, PieceKind.toStr]) st en _
          (coordParse_roundtrip_upper st) (coordParse_roundtrip_upper en) (by decide)
      · exact lanParse_data5 _ _ _ _ _ (upperChar 'r')
          (by simp [upperStr, lanString, coordString, String.data_append, PieceKind.toStr]) st en _
          (coordParse_roundtrip_upper st) (coordParse_roundtrip_upper en) (by decide)
      · exact lanParse_data5 _ _ _ _ _ (upperChar 'q')
          (by simp [upperStr, lanString, coordString, String.data_append, PieceKind.toStr]) st en _
          (coordParse_roundtrip_upper st) (coordParse_roundtrip_upper en) (by decide)
      · exact lanParse_data5 _ _ _ _ _ (upperChar 'k')
          (by simp [upperStr, lanString, coordString, String.data_append, PieceKind.toStr]) st en _
          (coordParse_roundtrip_upper st) (coordParse_roundtrip_upper en) (by decide)

/-! ## Claim C5: the danger-zone walk of sliding pieces -/

/-- Along a ray of unit offsets, if a later step stays on the board then so
does every earlier step. -/
theorem tryMove_ray_mono (start : Coordinate) (dx dy : Int)
    (hdx : dx = -1 ∨ dx = 0 ∨ dx = 1) (hdy : dy = -1 ∨ dy = 0 ∨ dy = 1)
    {i j : Nat} (hij : i ≤ j) {e : Coordinate}
    (hj : start.tryMove (j * dx) (j * dy) = .ok e) :
    ∃ c, start.tryMove (i * dx) (i * dy) = .ok c := by
  rw [Coordinate.tryMove_ok_iff] at hj
  rw [Coordinate.tryMove_isOk_iff]
  have h1 := Coordinate.x_lt start
  have h2 := Coordinate.y_lt start
  have h3 := Coordinate.x_lt e
  have h4 := Coordinate.y_lt e
  rcases hdx with h | h | h <;> rcases hdy with h' | h' | h' <;> subst h <;> subst h' <;>
    simp only [mul_neg_one, mul_zero, mul_one] at hj ⊢ <;> omega

/-- Characterization of the `walk_dangerously` loop: a square ends up
marked exactly when it was already marked, or some step of the walk lands
on it with every strictly earlier step landing on a square that is either
empty or holds the enemy king. -/
theorem walkAux_get_iff (b : Board) (opp : Color) (start : Coordinate) (dx dy : Int)
    (hdx : dx = -1 ∨ dx = 0 ∨ dx = 1) (hdy : dy = -1 ∨ dy = 0 ∨ dy = 1)
    (fuel i0 : Nat) (dz : Bitboard) (e : Coordinate) :
    (Board.walkDangerouslyAux b opp start dx dy fuel i0 dz).get e = true ↔
      (dz.get e = true ∨ ∃ j : Nat, i0 ≤ j ∧ j < i0 + fuel ∧
        start.tryMove (j * dx) (j * dy) = .ok e ∧
        ∀ i : Nat, i0 ≤ i → i < j → ∀ c, start.tryMove (i * dx) (i * dy) = .ok c →
          (b c = none ∨ b c = some ⟨opp, .king⟩)) := by
  induction fuel generalizing i0 dz with
  | zero =>
    simp only [Board.walkDangerouslyAux]
    constructor
    · intro h
      exact Or.inl h
    · rintro (h | ⟨j, h1, h2, -, -⟩)
      · exact h
      · omega
  | succ fuel ih =>
    rcases htm : start.tryMove ((i0 : Nat) * dx) ((i0 : Nat) * dy) with err | c
    · simp only [Board.walkDangerouslyAux, htm]
      constructor
      · intro h
        exact Or.inl h
      · rintro (h | ⟨j, h1, h2, hok, -⟩)
        · exact h
        · obtain ⟨c, hc⟩ := tryMove_ray_mono start dx dy hdx hdy h1 hok
          rw [htm] at hc
          exact absurd hc (by simp)
    · rcases hbc : b c with _ | p
      · -- empty square: the walk marks it and continues
        simp only [Board.walkDangerouslyAux, htm, hbc]
        rw [ih (i0 + 1) (dz.set c true)]
        constructor
        · rintro (hset | ⟨j, h1, h2, hok, hchain⟩)
          · by_cases hec : e = c
            · subst hec
              exact Or.inr ⟨i0, le_refl _, by omega, htm, fun i hi1 hi2 => by omega⟩
            · rw [Bitboard.get_set_ne dz c e true hec] at hset
              exact Or.inl hset
          · refine Or.inr ⟨j, by omega, by omega, hok, ?_⟩
            intro i hi1 hi2 c' hc'
            by_cases hii : i = i0
            · subst hii
              rw [htm] at hc'
              have hcc : c = c' := by simpa using hc'
              subst hcc
              exact Or.inl hbc
            · exact hchain i (by omega) hi2 c' hc'
        · rintro (hdz | ⟨j, h1, h2, hok, hchain⟩)
          · left
            by_cases hec : e = c
            · subst hec
              rw [Bitboard.get_set_self]
            · rw [Bitboard.get_set_ne dz c e true hec]
              exact hdz
          · by_cases hji : j = i0
            · subst hji
              rw [htm] at hok
              have hce : c = e := by simpa using hok
              subst hce
              left
              rw [Bitboard.get_set_self]
            · exact Or.inr ⟨j, by omega, by omega, hok,
                fun i hi1 hi2 c' hc' => hchain i (by omega) hi2 c' hc'⟩
      · by_cases hking : p.color = opp ∧ p.kind = .king
        · -- enemy king: marked, and the walk slides on through it
          have hp : p = ⟨opp, .king⟩ := by
            obtain ⟨hk1, hk2⟩ := hking
            cases p
            simp only at hk1 hk2
            rw [hk1, hk2]
          simp only [Board.walkDangerouslyAux, htm, hbc]
          rw [if_pos hking]
          rw [ih (i0 + 1) (dz.set c true)]
          constructor
          · rintro (hset | ⟨j, h1, h2, hok, hchain⟩)
            · by_cases hec : e = c
              · subst hec
                exact Or.inr ⟨i0, le_refl _, by omega, htm, fun i hi1 hi2 => by omega⟩
              · rw [Bitboard.get_set_ne dz c e true hec] at hset
                exact Or.inl hset
            · refine Or.inr ⟨j, by omega, by omega, hok, ?_⟩
              intro i hi1 hi2 c' hc'
              by_cases hii : i = i0
              · subst hii
                rw [htm] at hc'
                have hcc : c = c' := by simpa using hc'
                subst hcc
                right
                rw [hbc, hp]
              · exact hchain i (by omega) hi2 c' hc'
          · rintro (hdz | ⟨j, h1, h2, hok, hchain⟩)
            · left
              by_cases hec : e = c
              · subst hec
                rw [Bitboard.get_set_self]
              · rw [Bitboard.get_set_ne dz c e true hec]
                exact hdz
            · by_cases hji : j = i0
              · subst hji
                rw [htm] at hok
                have hce : c = e := by simpa using hok
                subst hce
                left
                rw [Bitboard.get_set_self]
              · exact Or.inr ⟨j, by omega, by omega, hok,
                  fun i hi1 hi2 c' hc' => hchain i (by omega) hi2 c' hc'⟩
        · -- any other piece blocks: marked and the walk stops
          simp only [Board.walkDangerouslyAux, htm, hbc]
          rw [if_neg hking]
          constructor
          · intro hset
            by_cases hec : e = c
            · subst hec
              exact Or.inr ⟨i0, le_refl _, by omega, htm, fun i hi1 hi2 => by omega⟩
            · rw [Bitboard.get_set_ne dz c e true hec] at hset
              exact Or.inl hset
          · rintro (hdz | ⟨j, h1, h2, hok, hchain⟩)
            · by_cases hec : e = c
              · subst hec
                rw [Bitboard.get_set_self]
              · rw [Bitboard.get_set_ne dz c e true hec]
                exact hdz
            · by_cases hji : j = i0
              · subst hji
                rw [htm] at hok
                have hce : c = e := by simpa using hok
                subst hce
                rw [Bitboard.get_set_self]
              · rcases hchain i0 (le_refl _) (by omega) c htm with hnone | hkingc
                · rw [hbc] at hnone
                  exact absurd hnone (by simp)
                · rw [hbc] at hkingc
                  have hp : p = ⟨opp, .king⟩ := by simpa using hkingc
                  exact absurd (by rw [hp]; exact ⟨rfl, rfl⟩) hking

/-- C5: for a sliding walk from an occupied square in a unit ray
direction, a square is marked in the resulting danger zone exactly when it
was already marked, or it lies on the ray at some step `j ≤ 7` and every
strictly earlier step of the ray lands on a square that is either empty
or holds the enemy king (the king of the color opposite to the walking
piece). In particular every empty square up to and including the first
occupied square is marked, a non-king blocker stops the walk, and the
walk x-rays through the enemy king. -/
theorem claim_C5 (b : Board) (dz : Bitboard) (start : Coordinate) (piece : Piece) (dx dy : Int)
    (hb : b start = some piece)
    (hdx : dx = -1 ∨ dx = 0 ∨ dx = 1) (hdy : dy = -1 ∨ dy = 0 ∨ dy = 1)
    (e : Coordinate) :
    (Board.walkDangerously b dz start dx dy).get e = true ↔
      (dz.get e = true ∨ ∃ j : Nat, 1 ≤ j ∧ j ≤ 7 ∧
        start.tryMove (j * dx) (j * dy) = .ok e ∧
        ∀ i : Nat, 1 ≤ i → i < j → ∀ c, start.tryMove (i * dx) (i * dy) = .ok c →
          (b c = none ∨ b c = some ⟨piece.color.opponent, .king⟩)) := by
  unfold Board.walkDangerously
  rw [hb]
  rw [walkAux_get_iff b piece.color.opponent start dx dy hdx hdy 7 1 dz e]
  constructor
  · rintro (h | ⟨j, h1, h2, h3, h4⟩)
    · exact Or.inl h
    · exact Or.inr ⟨j, h1, by omega, h3, h4⟩
  · rintro (h | ⟨j, h1, h2, h3, h4⟩)
    · exact Or.inl h
    · exact Or.inr ⟨j, h1, by omega, h3, h4⟩

/-- A board with a white rook on a1, a black king on a4 and a black pawn
on a6, exercising the x-ray through the enemy king. -/
def c5Board : Board := fun c =>
  if c = sq 56 then some ⟨.white, .rook⟩
  else if c = sq 32 then some ⟨.black, .king⟩
  else if c = sq 16 then some ⟨.black, .pawn⟩
  else none

/-- C5 witness: the characterization instantiated for the rook on a1
walking up the a-file, at the square a5 behind the enemy king. -/
theorem claim_C5_witness :
    c5Board (sq 56) = some ⟨.white, .rook⟩ ∧
    ((Board.walkDangerously c5Board Bitboard.emptyBB (sq 56) 0 1).get (sq 24) = true ↔
      (Bitboard.emptyBB.get (sq 24) = true ∨ ∃ j : Nat, 1 ≤ j ∧ j ≤ 7 ∧
        (sq 56).tryMove (j * 0) (j * 1) = .ok (sq 24) ∧
        ∀ i : Nat, 1 ≤ i → i < j → ∀ c, (sq 56).tryMove (i * 0) (i * 1) = .ok c →
          (c5Board c = none ∨ c5Board c = some ⟨Color.white.opponent, .king⟩))) :=
  ⟨by decide, claim_C5 c5Board Bitboard.emptyBB (sq 56) ⟨.white, .rook⟩ 0 1 (by decide)
    (by decide) (by decide) (sq 24)⟩

/-! ## Claim C6: terminal results of `Engine::evaluate` -/

/-- A position in which both kings are classified as checkmated: white king
h1, pawns g2 h2, rook a8, queen g6; black king g8, knights f2 h3, pawn g3.
Both sides' analyses report checkmate, and `evaluate` follows the white
branch first. -/
def c6Board : Board := fun c =>
  if c = sq 63 then some ⟨.white, .king⟩
  else if c = sq 54 then some ⟨.white, .pawn⟩
  else if c = sq 55 then some ⟨.white, .pawn⟩
  else if c = sq 0 then some ⟨.white, .rook⟩
  else if c = sq 22 then some ⟨.white, .queen⟩
  else if c = sq 6 then some ⟨.black, .king⟩
  else if c = sq 53 then some ⟨.black, .knight⟩
  else if c = sq 47 then some ⟨.black, .knight⟩
  else if c = sq 46 then some ⟨.black, .pawn⟩
  else none

def c6State : State :=
  { board := c6Board, sideToMove := .black, castlingAbility := none,
    enPassantTarget := none, halfMoves := 0, fullMoves := 1 }

/-- C6 counterexample: when both sides' analyses report checkmate, the
white checkmate branch wins, so a checkmated black side does not yield
`Winner(white)` as the claim's "either side" reading requires. -/
theorem claim_C6_counterexample :
    (c6State.analyze .black).kingSafety = .checkmate ∧
    Engine.evaluate c6State ≠ .winner .white := by
  decide

/-- C6 (amended): `Engine::evaluate` dispatches its terminal results in
order: a checkmated white yields `Winner(black)`; otherwise a checkmated
black yields `Winner(white)`; otherwise a stalemate of either side yields
`Draw`; otherwise a half-move clock of at least 75 yields `Draw`. These
take precedence over the static score. -/
theorem claim_C6 (s : State) :
    ((s.analyze .white).kingSafety = .checkmate → Engine.evaluate s = .winner .black) ∧
    ((s.analyze .white).kingSafety ≠ .checkmate → (s.analyze .black).kingSafety = .checkmate →
      Engine.evaluate s = .winner .white) ∧
    ((s.analyze .white).kingSafety ≠ .checkmate → (s.analyze .black).kingSafety ≠ .checkmate →
      ((s.analyze .white).kingSafety = .stalemate ∨ (s.analyze .black).kingSafety = .stalemate) →
      Engine.evaluate s = .draw) ∧
    ((s.analyze .white).kingSafety ≠ .checkmate → (s.analyze .black).kingSafety ≠ .checkmate →
      ¬((s.analyze .white).kingSafety = .stalemate ∨ (s.analyze .black).kingSafety = .stalemate) →
      75 ≤ s.halfMoves → Engine.evaluate s = .draw) := by
  refine ⟨?_, ?_, ?_, ?_⟩
  · intro h1
    unfold Engine.evaluate
    rw [if_pos h1]
  · intro h1 h2
    unfold Engine.evaluate
    rw [if_neg h1, if_pos h2]
  · intro h1 h2 h3
    unfold Engine.evaluate
    rw [if_neg h1, if_neg h2, if_pos h3]
  · intro h1 h2 h3 h4
    unfold Engine.evaluate
    rw [if_neg h1, if_neg h2, if_neg h3, if_pos h4]

/-- C6 witness: in the double-checkmate position the first branch fires
and white's checkmate yields `Winner(black)`. -/
theorem claim_C6_witness :
    (c6State.analyze .white).kingSafety = .checkmate ∧
    Engine.evaluate c6State = .winner .black :=
  ⟨by decide, (claim_C6 c6State).1 (by decide)⟩

/-! ## Claim C3: when a double pawn push sets the en-passant target -/

/-- The one-sided adjacent-pawn test succeeds exactly when the square one
file over from the destination is on the board and holds an opposing pawn. -/
theorem epAdjacentPawn_iff (board : Board) (e : Coordinate) (opp : Color) (d : Int) :
    epAdjacentPawn board e opp d = true ↔
      ∃ c, e.tryMove d 0 = .ok c ∧ board c = some ⟨opp, .pawn⟩ := by
  unfold epAdjacentPawn
  rcases htm : e.tryMove d 0 with err | c
  · simp
  · dsimp only
    rcases hb : board c with _ | p
    · simp [hb]
    · obtain ⟨pc, pk⟩ := p
      cases pk <;> simp [hb, Piece.mk.injEq]

/-- If the en-passant-target computation yields a target, the move is a
two-square pawn move, the target is the square passed over, and an
opposing pawn stands one file to the left or right of the destination. -/
theorem epTargetAfter_some (board : Board) (lan : Lan) (piece : Piece) (cs opp : Color)
    (t : Coordinate) (h : epTargetAfter board lan piece cs opp = some t) :
    piece.kind = .pawn ∧
    (((lan.endc.y : Int) - lan.start.y) = 2 ∨ ((lan.endc.y : Int) - lan.start.y) = -2) ∧
    lan.start.tryMove 0 (-((lan.endc.y : Int) - lan.start.y).sign) = .ok t ∧
    ((∃ c, lan.endc.tryMove (-1) 0 = .ok c ∧ board c = some ⟨opp, .pawn⟩) ∨
     (∃ c, lan.endc.tryMove 1 0 = .ok c ∧ board c = some ⟨opp, .pawn⟩)) := by
  unfold epTargetAfter at h
  dsimp only at h
  split at h
  case isFalse => exact absurd h (by simp)
  case isTrue hc =>
    obtain ⟨hdy, hpawn⟩ := hc
    refine ⟨hpawn, hdy, ?_⟩
    split at h
    case h_1 => exact absurd h (by simp)
    case h_2 pet hpet =>
      rcases hL : epAdjacentPawn board lan.endc opp (-1) <;>
        rcases hR : epAdjacentPawn board lan.endc opp 1 <;>
        rw [hL, hR] at h <;> simp only [cond_true, cond_false] at h
      · exact absurd h (by simp at h)
      · norm_num at h
        obtain ⟨-, rfl⟩ := h
        exact ⟨hpet, Or.inr ((epAdjacentPawn_iff board lan.endc opp 1).mp hR)⟩
      · norm_num at h
        obtain ⟨-, rfl⟩ := h
        exact ⟨hpet, Or.inl ((epAdjacentPawn_iff board lan.endc opp (-1)).mp hL)⟩
      · norm_num at h
        subst h
        exact ⟨hpet, Or.inl ((epAdjacentPawn_iff board lan.endc opp (-1)).mp hL)⟩

/-- When exactly one opposing pawn is in position to capture and the
discovered-check scan fires, the en-passant target stays unset. -/
theorem epTargetAfter_discovered (board : Board) (lan : Lan) (piece : Piece) (cs opp : Color)
    (hone : epAdjacentPawn board lan.endc opp (-1) ≠ epAdjacentPawn board lan.endc opp 1)
    (hexp : epCaptureExposesKing board lan cs opp = true) :
    epTargetAfter board lan piece cs opp = none := by
  unfold epTargetAfter
  dsimp only
  split
  case isFalse => rfl
  case isTrue hc =>
    split
    case h_1 => rfl
    case h_2 pet hpet =>
      rcases hL : epAdjacentPawn board lan.endc opp (-1) <;>
        rcases hR : epAdjacentPawn board lan.endc opp 1
      · simp [hL, hR] at hone
      · simp [hexp]
      · simp [hexp]
      · simp [hL, hR] at hone

/-- C3: whenever `State::make_move` succeeds, the resulting en-passant
target is set only for a two-square pawn move whose destination has an
opposing pawn one file to its left or right (and the target is the square
passed over); and when exactly one such opposing pawn exists and the
discovered-check scan reports that capturing en passant would expose the
opponent's king along the shared rank, the target is left unset. -/
theorem claim_C3 (s : State) (lan : Lan) (s' : State) (u : StateUndoer)
    (hmk : s.makeMove lan = .ok (s', u)) :
    (∀ t, s'.enPassantTarget = some t →
      ∃ piece, s.board lan.start = some piece ∧ piece.kind = .pawn ∧
        (((lan.endc.y : Int) - lan.start.y) = 2 ∨ ((lan.endc.y : Int) - lan.start.y) = -2) ∧
        lan.start.tryMove 0 (-((lan.endc.y : Int) - lan.start.y).sign) = .ok t ∧
        ((∃ c, lan.endc.tryMove (-1) 0 = .ok c ∧
            s.board c = some ⟨s.sideToMove.opponent, .pawn⟩) ∨
         (∃ c, lan.endc.tryMove 1 0 = .ok c ∧
            s.board c = some ⟨s.sideToMove.opponent, .pawn⟩))) ∧
    (epAdjacentPawn s.board lan.endc s.sideToMove.opponent (-1) ≠
        epAdjacentPawn s.board lan.endc s.sideToMove.opponent 1 →
      epCaptureExposesKing s.board lan s.sideToMove s.sideToMove.opponent = true →
      s'.enPassantTarget = none) := by
  unfold State.makeMove at hmk
  dsimp only at hmk
  split at hmk
  case h_1 => exact absurd hmk (by simp)
  case h_2 piece hpiece =>
    split at hmk
    case h_1 => exact absurd hmk (by simp)
    case h_2 mu b' hb' =>
      rw [Except.ok.injEq, Prod.mk.injEq] at hmk
      obtain ⟨hs', -⟩ := hmk
      subst hs'
      constructor
      · intro t ht
        dsimp only at ht
        obtain ⟨hkind, hdy, htm, hadj⟩ := epTargetAfter_some _ _ _ _ _ _ ht
        exact ⟨piece, hpiece, hkind, hdy, htm, hadj⟩
      · intro hone hexp
        exact epTargetAfter_discovered s.board lan piece s.sideToMove s.sideToMove.opponent
          hone hexp

/-- Position `rnbqkbnr/ppp1pppp/8/8/3p4/8/PPPPPPPP/RNBQKBNR w KQkq - 0 3`
from the spec's scenario: a black pawn on d4, white to play `e2e4`. -/
def c3Board : Board := fun c =>
  if c = sq 11 then none
  else if c = sq 35 then some ⟨.black, .pawn⟩
  else Board.defaultBoard c

def c3State : State :=
  { board := c3Board, sideToMove := .white,
    castlingAbility := some ⟨true, true, true, true⟩,
    enPassantTarget := none, halfMoves := 0, fullMoves := 3 }

def c3Lan : Lan := ⟨sq 52, sq 36, none⟩

def c3FallbackUndo : StateUndoer := ⟨⟨⟨sq 0, sq 0, none⟩, none, none⟩, none, none, 0⟩

def c3s' : State := ((c3State.makeMove c3Lan).toOption.getD (c3State, c3FallbackUndo)).1

def c3u : StateUndoer := ((c3State.makeMove c3Lan).toOption.getD (c3State, c3FallbackUndo)).2

/-- C3 witness: in the scenario position, `e2e4` sets the target to e3 and
the theorem reports the black d4 pawn ready to capture. -/
theorem claim_C3_witness :
    ∃ piece, c3State.board c3Lan.start = some piece ∧ piece.kind = .pawn ∧
      (((c3Lan.endc.y : Int) - c3Lan.start.y) = 2 ∨
        ((c3Lan.endc.y : Int) - c3Lan.start.y) = -2) ∧
      c3Lan.start.tryMove 0 (-((c3Lan.endc.y : Int) - c3Lan.start.y).sign) = .ok (sq 44) ∧
      ((∃ c, c3Lan.endc.tryMove (-1) 0 = .ok c ∧
          c3State.board c = some ⟨c3State.sideToMove.opponent, .pawn⟩) ∨
       (∃ c, c3Lan.endc.tryMove 1 0 = .ok c ∧
          c3State.board c = some ⟨c3State.sideToMove.opponent, .pawn⟩)) :=
  (claim_C3 c3State c3Lan c3s' c3u (by decide)).1 (sq 44) (by decide)

/-! ## Claim C1: `unmake_move` undoes `make_move` on legal moves -/

/-- Each color has at most one king on the board. -/
def kingsUnique (s : State) : Prop :=
  ∀ c1 c2 color, s.board c1 = some ⟨color, .king⟩ → s.board c2 = some ⟨color, .king⟩ → c1 = c2

/-- A set castling right implies its king and rook stand on their home
squares (validated by `Fen::try_from` and preserved by `make_move`). -/
def castlingInvariant (s : State) : Prop :=
  ∀ ability, s.castlingAbility = some ability →
    (ability.whiteKingside = true →
      s.board (sq 60) = some ⟨.white, .king⟩ ∧ s.board (sq 63) = some ⟨.white, .rook⟩) ∧
    (ability.whiteQueenside = true →
      s.board (sq 60) = some ⟨.white, .king⟩ ∧ s.board (sq 56) = some ⟨.white, .rook⟩) ∧
    (ability.blackKingside = true →
      s.board (sq 4) = some ⟨.black, .king⟩ ∧ s.board (sq 7) = some ⟨.black, .rook⟩) ∧
    (ability.blackQueenside = true →
      s.board (sq 4) = some ⟨.black, .king⟩ ∧ s.board (sq 0) = some ⟨.black, .rook⟩)

/-- A set en-passant target has the opposing double-pushed pawn in front of
it (validated by `Fen::try_from` and established by `make_move`). -/
def epInvariant (s : State) : Prop :=
  ∀ t, s.enPassantTarget = some t →
    ∃ c, t.tryMove 0 (match s.sideToMove with | .white => -1 | .black => 1) = .ok c ∧
      s.board c = some ⟨s.sideToMove.opponent, .pawn⟩

/-- Board configuration that makes the castle branch of
`Board::make_move`/`unmake_move` a faithful round trip. -/
def castleConfig (b : Board) (color : Color) (lan : Lan) : Prop :=
  let rs := Board.castleRookSquares color (decide (0 < (lan.endc.x : Int) - (lan.start.x : Int)))
  b rs.1 = some ⟨color, .rook⟩ ∧ b rs.2 = none ∧
  rs.1 ≠ rs.2 ∧ rs.1 ≠ lan.start ∧ rs.1 ≠ lan.endc ∧
  rs.2 ≠ lan.start ∧ rs.2 ≠ lan.endc ∧ lan.start ≠ lan.endc

/-- `Board::unmake_move` undoes `Board::make_move`, provided the en-passant
branch really captures an adjacent opposing pawn and the castle branch
starts from a proper castling configuration. All other branches round-trip
unconditionally. -/
theorem Board.unmake_make (b : Board) (lan : Lan) (mu : MoveUndoer) (b' : Board)
    (hmk : b.makeMove lan = .ok (mu, b'))
    (hep : ∀ piece, b lan.start = some piece → piece.kind = .pawn → lan.promotion = none →
      (lan.endc.x : Int) - lan.start.x ≠ 0 → b lan.endc = none →
      ((lan.endc.y : Int) - lan.start.y ≠ 0 ∧
       ∀ c, lan.endc.tryMove 0 ((lan.endc.y : Int) - (lan.start.y : Int)).sign = .ok c →
         b c = some ⟨piece.color.opponent, .pawn⟩))
    (hca : ∀ piece, b lan.start = some piece → piece.kind = .king →
      ((lan.endc.x : Int) - lan.start.x = 2 ∨ (lan.endc.x : Int) - lan.start.x = -2) →
      castleConfig b piece.color lan) :
    b'.unmakeMove mu = b := by
  unfold Board.makeMove at hmk
  dsimp only at hmk
  split at hmk
  case h_2 => exact absurd hmk (by simp)
  case h_1 piece hpiece =>
    split at hmk
    -- pawn
    case h_1 hkind =>
      split at hmk
      case h_1 promo hpromo =>
        -- promotion
        rw [Except.ok.injEq, Prod.mk.injEq] at hmk
        obtain ⟨hmu, hb'⟩ := hmk
        subst hmu
        subst hb'
        unfold Board.unmakeMove
        dsimp only
        rw [show (Function.update (Function.update b lan.start none) lan.endc
            (some ⟨piece.color, promo⟩)) lan.endc = some ⟨piece.color, promo⟩ from
          Function.update_same _ _ _]
        dsimp only
        funext x
        simp only [Function.update_apply]
        by_cases hxs : x = lan.start
        · subst hxs
          rw [if_pos rfl, hpiece]
          obtain ⟨pc, pk⟩ := piece
          simp only at hkind
          rw [hkind]
        · rw [if_neg hxs]
          by_cases hxe : x = lan.endc
          · subst hxe
            rw [if_pos rfl]
          · simp only [if_neg hxs, if_neg hxe]
      case h_2 hpromo =>
        split at hmk
        case isTrue hcond =>
          -- en passant
          split at hmk
          case h_2 => exact absurd hmk (by simp)
          case h_1 cap hcap =>
            rw [Except.ok.injEq, Prod.mk.injEq] at hmk
            obtain ⟨hmu, hb'⟩ := hmk
            subst hmu
            subst hb'
            obtain ⟨hdxne, hprev⟩ := hcond
            obtain ⟨hdyne, hcappawn⟩ := hep piece hpiece hkind hpromo hdxne hprev
            have hcapb := hcappawn cap hcap
            obtain ⟨hcx, hcy⟩ := Coordinate.tryMove_ok_iff.mp hcap
            have hsign : ((lan.endc.y : Int) - lan.start.y).sign = 1 ∨
                ((lan.endc.y : Int) - lan.start.y).sign = -1 := by
              rcases Int.lt_trichotomy ((lan.endc.y : Int) - lan.start.y) 0 with h | h | h
              · exact Or.inr (Int.sign_eq_neg_one_of_neg h)
              · exact absurd h hdyne
              · exact Or.inl (Int.sign_eq_one_of_pos h)
            have hse : lan.start ≠ lan.endc := by
              intro h
              rw [h] at hdxne
              omega
            have hce : cap ≠ lan.endc := by
              intro h
              rw [h] at hcy
              omega
            have hcs : cap ≠ lan.start := by
              intro h
              rw [h] at hcx
              omega
            unfold Board.unmakeMove
            dsimp only
            rw [show (Function.update (Function.update (Function.update b cap none)
                lan.start none) lan.endc (b lan.start)) lan.endc = b lan.start from
              Function.update_same _ _ _, hpiece]
            dsimp only
            rw [hcap]
            funext x
            simp only [Function.update_apply]
            by_cases hxc : x = cap
            · subst hxc
              rw [if_pos rfl, hcapb]
            · rw [if_neg hxc]
              by_cases hxe : x = lan.endc
              · subst hxe
                rw [if_pos rfl, hprev]
              · rw [if_neg hxe]
                by_cases hxs : x = lan.start
                · subst hxs
                  rw [if_pos rfl, hpiece]
                · simp only [if_neg hxs, if_neg hxe, if_neg hxc]
        case isFalse hcond =>
          -- plain pawn push or capture
          rw [Except.ok.injEq, Prod.mk.injEq] at hmk
          obtain ⟨hmu, hb'⟩ := hmk
          subst hmu
          subst hb'
          unfold Board.unmakeMove
          dsimp only
          rw [show (Function.update (Function.update b lan.start none) lan.endc
              (b lan.start)) lan.endc = b lan.start from Function.update_same _ _ _, hpiece]
          funext x
          simp only [Function.update_apply]
          by_cases hxe : x = lan.endc
          · subst hxe
            rw [if_pos rfl]
          · rw [if_neg hxe]
            by_cases hxs : x = lan.start
            · subst hxs
              rw [if_pos rfl, hpiece]
            · simp only [if_neg hxs, if_neg hxe]
    -- king
    case h_2 hkind =>
      split at hmk
      case isTrue hdx2 =>
        -- castling
        rw [Except.ok.injEq, Prod.mk.injEq] at hmk
        obtain ⟨hmu, hb'⟩ := hmk
        subst hmu
        subst hb'
        obtain ⟨hr1, hr2, h12, h1s, h1e, h2s, h2e, hse⟩ :=
          hca piece hpiece hkind hdx2
        unfold Board.unmakeMove
        dsimp only
        rw [show (Function.update (Function.update (Function.update (Function.update b
            (Board.castleRookSquares piece.color
              (decide (0 < (lan.endc.x : Int) - (lan.start.x : Int)))).1 none)
            (Board.castleRookSquares piece.color
              (decide (0 < (lan.endc.x : Int) - (lan.start.x : Int)))).2
            (some ⟨piece.color, .rook⟩)) lan.start none) lan.endc (b lan.start)) lan.endc =
            b lan.start from Function.update_same _ _ _, hpiece]
        dsimp only
        rw [if_neg (by omega : ¬((lan.endc.x : Int) - (lan.start.x : Int) = 0))]
        funext x
        simp only [Function.update_apply]
        by_cases hx2 : x = (Board.castleRookSquares piece.color
            (decide (0 < (lan.endc.x : Int) - (lan.start.x : Int)))).2
        · subst hx2
          rw [if_pos rfl, hr2]
        · rw [if_neg hx2]
          by_cases hx1 : x = (Board.castleRookSquares piece.color
              (decide (0 < (lan.endc.x : Int) - (lan.start.x : Int)))).1
          · subst hx1
            rw [if_pos rfl, hr1]
          · rw [if_neg hx1]
            by_cases hxe : x = lan.endc
            · subst hxe
              rw [if_pos rfl]
            · rw [if_neg hxe]
              by_cases hxs : x = lan.start
              · subst hxs
                rw [if_pos rfl, hpiece]
              · simp only [if_neg hxs, if_neg hxe, if_neg hx1, if_neg hx2]
      case isFalse hdx2 =>
        -- plain king step
        rw [Except.ok.injEq, Prod.mk.injEq] at hmk
        obtain ⟨hmu, hb'⟩ := hmk
        subst hmu
        subst hb'
        unfold Board.unmakeMove
        dsimp only
        rw [show (Function.update (Function.update b lan.start none) lan.endc
            (b lan.start)) lan.endc = b lan.start from Function.update_same _ _ _, hpiece]
        funext x
        simp only [Function.update_apply]
        by_cases hxe : x = lan.endc
        · subst hxe
          rw [if_pos rfl]
        · rw [if_neg hxe]
          by_cases hxs : x = lan.start
          · subst hxs
            rw [if_pos rfl, hpiece]
          · simp only [if_neg hxs, if_neg hxe]
    -- every other piece kind
    case h_3 k hk1 hk2 hkind =>
      split at hmk
      case isTrue => exact absurd hmk (by simp)
      case isFalse =>
        rw [Except.ok.injEq, Prod.mk.injEq] at hmk
        obtain ⟨hmu, hb'⟩ := hmk
        subst hmu
        subst hb'
        unfold Board.unmakeMove
        dsimp only
        rw [show (Function.update (Function.update b lan.start none) lan.endc
            (b lan.start)) lan.endc = b lan.start from Function.update_same _ _ _, hpiece]
        funext x
        simp only [Function.update_apply]
        by_cases hxe : x = lan.endc
        · subst hxe
          rw [if_pos rfl]
        · rw [if_neg hxe]
          by_cases hxs : x = lan.start
          · subst hxs
            rw [if_pos rfl, hpiece]
          · simp only [if_neg hxs, if_neg hxe]

/-- Every move registered by `register_move` starts at `start` and ends at
the given square. -/
theorem registerPawnMove_mem {start e : Coordinate} {lan : Lan}
    (h : lan ∈ registerPawnMove start e) : lan.start = start ∧ lan.endc = e := by
  unfold registerPawnMove at h
  split at h
  · simp only [List.mem_cons, List.not_mem_nil, or_false] at h
    rcases h with rfl | rfl | rfl | rfl <;> exact ⟨rfl, rfl⟩
  · rw [List.mem_singleton] at h
    subst h
    exact ⟨rfl, rfl⟩

/-- Every move registered by `try_register_move` is a one-offset move. -/
theorem tryRegisterMoveTo_mem {board : Board} {opp : Color} {start : Coordinate}
    {o : Int × Int} {lan : Lan} (h : lan ∈ tryRegisterMoveTo board opp start o) :
    ∃ e, start.tryMove o.1 o.2 = .ok e ∧ lan = ⟨start, e, none⟩ := by
  unfold tryRegisterMoveTo at h
  split at h
  case h_2 => exact absurd h (List.not_mem_nil _)
  case h_1 e he =>
    split at h
    case h_1 p hp =>
      split at h
      · exact ⟨e, he, List.mem_singleton.mp h⟩
      · exact absurd h (List.not_mem_nil _)
    case h_2 => exact ⟨e, he, List.mem_singleton.mp h⟩

/-- Membership in an append-accumulating fold comes from the initial list
or from one of the folded pieces. -/
theorem mem_foldl_append {α β : Type} (f : β → List α) (l : List β) (init : List α) (a : α)
    (h : a ∈ l.foldl (fun acc o => acc ++ f o) init) : a ∈ init ∨ ∃ o, o ∈ l ∧ a ∈ f o := by
  induction l generalizing init with
  | nil => exact Or.inl h
  | cons o l ih =>
    rcases ih (init ++ f o) h with h' | ⟨o', ho', ha⟩
    · rcases List.mem_append.mp h' with h'' | h''
      · exact Or.inl h''
      · exact Or.inr ⟨o, List.mem_cons_self o l, h''⟩
    · exact Or.inr ⟨o', List.mem_cons_of_mem _ ho', ha⟩

/-- `sanitize_pinned_pawn` only removes moves. -/
theorem sanitizePinnedPawn_sub {s : State} {ml : List Lan} {kc c : Coordinate} {lan : Lan}
    (h : lan ∈ s.sanitizePinnedPawn ml kc c) : lan ∈ ml := by
  unfold State.sanitizePinnedPawn at h
  repeat' (first | split at h | dsimp only at h)
  all_goals first
    | exact h
    | exact (List.mem_filter.mp h).1
    | exact absurd h (List.not_mem_nil _)

/-- `sanitize_pinned_bishop` only removes moves. -/
theorem sanitizePinnedBishop_sub {s : State} {ml : List Lan} {kc c : Coordinate} {lan : Lan}
    (h : lan ∈ s.sanitizePinnedBishop ml kc c) : lan ∈ ml := by
  unfold State.sanitizePinnedBishop at h
  repeat' (first | split at h | dsimp only at h)
  all_goals first
    | exact h
    | exact (List.mem_filter.mp h).1
    | exact absurd h (List.not_mem_nil _)

/-- `sanitize_pinned_rook` only removes moves. -/
theorem sanitizePinnedRook_sub {s : State} {ml : List Lan} {kc c : Coordinate} {lan : Lan}
    (h : lan ∈ s.sanitizePinnedRook ml kc c) : lan ∈ ml := by
  unfold State.sanitizePinnedRook at h
  repeat' (first | split at h | dsimp only at h)
  all_goals first
    | exact h
    | exact (List.mem_filter.mp h).1
    | exact absurd h (List.not_mem_nil _)

/-- `sanitize_pinned_queen` only removes moves. -/
theorem sanitizePinnedQueen_sub {s : State} {ml : List Lan} {kc c : Coordinate} {lan : Lan}
    (h : lan ∈ s.sanitizePinnedQueen ml kc c) : lan ∈ ml := by
  unfold State.sanitizePinnedQueen at h
  repeat' (first | split at h | dsimp only at h)
  all_goals first
    | exact h
    | exact (List.mem_filter.mp h).1

/-- The per-square sanitizing of `State::analyze` only removes moves. -/
theorem analyzeSquareMoves_sub {s : State} {color : Color} {kc : Coordinate}
    {dz pins : Bitboard} {att : Bitboard × Bitboard} {c : Coordinate} {kind : PieceKind}
    {ml : List Lan} {lan : Lan}
    (h : lan ∈ s.analyzeSquareMoves color kc dz pins att c kind ml) : lan ∈ ml := by
  unfold State.analyzeSquareMoves at h
  repeat' (first | split at h | dsimp only at h)
  all_goals first
    | exact h
    | exact (List.mem_filter.mp h).1
    | exact absurd h (List.not_mem_nil _)
    | exact sanitizePinnedPawn_sub h
    | exact sanitizePinnedBishop_sub h
    | exact sanitizePinnedRook_sub h
    | exact sanitizePinnedQueen_sub h

/-- A move kept by `State::analyze` for a square is a pseudo-legal move of
the piece standing there, which belongs to the analyzed color. -/
theorem analyze_mem_structure (s : State) (color : Color) (lan : Lan) (l : List Lan)
    (hl : (s.analyze color).moves lan.start = some l) (hm : lan ∈ l) :
    ∃ piece, s.board lan.start = some piece ∧ piece.color = color ∧
      lan ∈ (match piece.kind with
        | PieceKind.pawn => s.generatePseudoLegalPawnMoves lan.start
        | PieceKind.knight => s.generatePseudoLegalKnightMoves lan.start
        | PieceKind.bishop => s.generatePseudoLegalBishopMoves lan.start
        | PieceKind.rook => s.generatePseudoLegalRookMoves lan.start
        | PieceKind.queen => s.generatePseudoLegalQueenMoves lan.start
        | PieceKind.king => s.generatePseudoLegalKingMoves lan.start) := by
  unfold State.analyze at hl
  split at hl
  case h_1 => exact absurd hl (by simp)
  case h_2 kc hkc =>
    dsimp only at hl
    split at hl
    case h_2 => exact absurd hl (by simp)
    case h_1 piece hpiece =>
      split at hl
      case isFalse => exact absurd hl (by simp)
      case isTrue hcolor =>
        rw [Option.some.injEq] at hl
        subst hl
        refine ⟨piece, hpiece, hcolor, ?_⟩
        have hgd : (s.generatePseudoLegalMoves color lan.start).getD [] =
            (match piece.kind with
              | PieceKind.pawn => s.generatePseudoLegalPawnMoves lan.start
              | PieceKind.knight => s.generatePseudoLegalKnightMoves lan.start
              | PieceKind.bishop => s.generatePseudoLegalBishopMoves lan.start
              | PieceKind.rook => s.generatePseudoLegalRookMoves lan.start
              | PieceKind.queen => s.generatePseudoLegalQueenMoves lan.start
              | PieceKind.king => s.generatePseudoLegalKingMoves lan.start) := by
          unfold State.generatePseudoLegalMoves
          rw [hpiece]
          dsimp only
          rw [if_pos hcolor]
          rfl
        rw [hgd] at hm
        exact analyzeSquareMoves_sub hm

/-- A pseudo-legal white pawn move that changes file and lands on an empty
square is the en-passant capture: its destination is the en-passant target
and it moves one rank up. -/
theorem pawnMoves_structure_white (s : State) (start : Coordinate) (lan : Lan)
    (hb : s.board start = some ⟨.white, .pawn⟩)
    (hm : lan ∈ s.generatePseudoLegalPawnMoves start)
    (hdx : (lan.endc.x : Int) - lan.start.x ≠ 0)
    (hempty : s.board lan.endc = none) :
    s.enPassantTarget = some lan.endc ∧ lan.start = start ∧
      (lan.endc.y : Int) - lan.start.y = -1 := by
  unfold State.generatePseudoLegalPawnMoves at hm
  rw [hb] at hm
  dsimp only at hm
  rcases List.mem_append.mp hm with hm4 | hmep
  · exfalso
    rcases List.mem_append.mp hm4 with hm3 | hmcr
    · rcases List.mem_append.mp hm3 with hm2 | hmcl
      · rcases List.mem_append.mp hm2 with hms | hmd
        · -- single push: dx = 0
          rcases h1 : start.tryMove 0 1 with e1 | e
          · rw [h1] at hms
            exact List.not_mem_nil _ hms
          · rw [h1] at hms
            dsimp only at hms
            split at hms
            · obtain ⟨hs, he⟩ := registerPawnMove_mem hms
              obtain ⟨hex, -⟩ := Coordinate.tryMove_ok_iff.mp h1
              rw [hs, he] at hdx
              omega
            · exact List.not_mem_nil _ hms
        · -- double push: dx = 0
          split at hmd
          · rcases h1 : start.tryMove 0 1 with e1 | p <;>
              rcases h2 : start.tryMove 0 2 with e2 | e <;>
              rw [h1, h2] at hmd <;> dsimp only at hmd
            · exact List.not_mem_nil _ hmd
            · exact List.not_mem_nil _ hmd
            · exact List.not_mem_nil _ hmd
            · split at hmd
              · obtain ⟨hs, he⟩ := registerPawnMove_mem hmd
                obtain ⟨hex, -⟩ := Coordinate.tryMove_ok_iff.mp h2
                rw [hs, he] at hdx
                omega
              · exact List.not_mem_nil _ hmd
          · exact List.not_mem_nil _ hmd
      · -- capture toward file -1: destination occupied
        rcases h1 : start.tryMove (-1) 1 with e1 | e
        · rw [h1] at hmcl
          exact List.not_mem_nil _ hmcl
        · rw [h1] at hmcl
          dsimp only at hmcl
          rcases h2 : s.board e with _ | p
          · rw [h2] at hmcl
            exact List.not_mem_nil _ hmcl
          · rw [h2] at hmcl
            obtain ⟨pc, pk⟩ := p
            cases pc
            · exact List.not_mem_nil _ hmcl
            · obtain ⟨-, he⟩ := registerPawnMove_mem hmcl
              rw [he] at hempty
              rw [h2] at hempty
              exact Option.noConfusion hempty
    · -- capture toward file +1: destination occupied
      rcases h1 : start.tryMove 1 1 with e1 | e
      · rw [h1] at hmcr
        exact List.not_mem_nil _ hmcr
      · rw [h1] at hmcr
        dsimp only at hmcr
        rcases h2 : s.board e with _ | p
        · rw [h2] at hmcr
          exact List.not_mem_nil _ hmcr
        · rw [h2] at hmcr
          obtain ⟨pc, pk⟩ := p
          cases pc
          · exact List.not_mem_nil _ hmcr
          · obtain ⟨-, he⟩ := registerPawnMove_mem hmcr
            rw [he] at hempty
            rw [h2] at hempty
            exact Option.noConfusion hempty
  · -- en passant
    split at hmep
    case isTrue hy =>
      rcases h3 : s.enPassantTarget with _ | ept
      · rw [h3] at hmep
        exact absurd hmep (List.not_mem_nil _)
      · rw [h3] at hmep
        dsimp only at hmep
        rcases List.mem_append.mp hmep with hA | hA <;>
          [rcases h4 : start.tryMove (-1) 1 with e1 | e;
           rcases h4 : start.tryMove 1 1 with e1 | e] <;> rw [h4] at hA <;> dsimp only at hA
        · exact absurd hA (List.not_mem_nil _)
        · split at hA
          case isTrue heq =>
            obtain ⟨hs, he⟩ := registerPawnMove_mem hA
            obtain ⟨-, hey⟩ := Coordinate.tryMove_ok_iff.mp h4
            subst heq
            rw [he, hs]
            exact ⟨rfl, rfl, by omega⟩
          case isFalse => exact absurd hA (List.not_mem_nil _)
        · exact absurd hA (List.not_mem_nil _)
        · split at hA
          case isTrue heq =>
            obtain ⟨hs, he⟩ := registerPawnMove_mem hA
            obtain ⟨-, hey⟩ := Coordinate.tryMove_ok_iff.mp h4
            subst heq
            rw [he, hs]
            exact ⟨rfl, rfl, by omega⟩
          case isFalse => exact absurd hA (List.not_mem_nil _)
    case isFalse => exact absurd hmep (List.not_mem_nil _)

/-- A pseudo-legal black pawn move that changes file and lands on an empty
square is the en-passant capture: its destination is the en-passant target
and it moves one rank down. -/
theorem pawnMoves_structure_black (s : State) (start : Coordinate) (lan : Lan)
    (hb : s.board start = some ⟨.black, .pawn⟩)
    (hm : lan ∈ s.generatePseudoLegalPawnMoves start)
    (hdx : (lan.endc.x : Int) - lan.start.x ≠ 0)
    (hempty : s.board lan.endc = none) :
    s.enPassantTarget = some lan.endc ∧ lan.start = start ∧
      (lan.endc.y : Int) - lan.start.y = 1 := by
  unfold State.generatePseudoLegalPawnMoves at hm
  rw [hb] at hm
  dsimp only at hm
  rcases List.mem_append.mp hm with hm4 | hmep
  · exfalso
    rcases List.mem_append.mp hm4 with hm3 | hmcr
    · rcases List.mem_append.mp hm3 with hm2 | hmcl
      · rcases List.mem_append.mp hm2 with hms | hmd
        · rcases h1 : start.tryMove 0 (-1) with e1 | e
          · rw [h1] at hms
            exact List.not_mem_nil _ hms
          · rw [h1] at hms
            dsimp only at hms
            split at hms
            · obtain ⟨hs, he⟩ := registerPawnMove_mem hms
              obtain ⟨hex, -⟩ := Coordinate.tryMove_ok_iff.mp h1
              rw [hs, he] at hdx
              omega
            · exact List.not_mem_nil _ hms
        · split at hmd
          · rcases h1 : start.tryMove 0 (-1) with e1 | p <;>
              rcases h2 : start.tryMove 0 (-2) with e2 | e <;>
              rw [h1, h2] at hmd <;> dsimp only at hmd
            · exact List.not_mem_nil _ hmd
            · exact List.not_mem_nil _ hmd
            · exact List.not_mem_nil _ hmd
            · split at hmd
              · obtain ⟨hs, he⟩ := registerPawnMove_mem hmd
                obtain ⟨hex, -⟩ := Coordinate.tryMove_ok_iff.mp h2
                rw [hs, he] at hdx
                omega
              · exact List.not_mem_nil _ hmd
          · exact List.not_mem_nil _ hmd
      · rcases h1 : start.tryMove (-1) (-1) with e1 | e
        · rw [h1] at hmcl
          exact List.not_mem_nil _ hmcl
        · rw [h1] at hmcl
          dsimp only at hmcl
          rcases h2 : s.board e with _ | p
          · rw [h2] at hmcl
            exact List.not_mem_nil _ hmcl
          · rw [h2] at hmcl
            obtain ⟨pc, pk⟩ := p
            cases pc
            · obtain ⟨-, he⟩ := registerPawnMove_mem hmcl
              rw [he] at hempty
              rw [h2] at hempty
              exact Option.noConfusion hempty
            · exact List.not_mem_nil _ hmcl
    · rcases h1 : start.tryMove 1 (-1) with e1 | e
      · rw [h1] at hmcr
        exact List.not_mem_nil _ hmcr
      · rw [h1] at hmcr
        dsimp only at hmcr
        rcases h2 : s.board e with _ | p
        · rw [h2] at hmcr
          exact List.not_mem_nil _ hmcr
        · rw [h2] at hmcr
          obtain ⟨pc, pk⟩ := p
          cases pc
          · obtain ⟨-, he⟩ := registerPawnMove_mem hmcr
            rw [he] at hempty
            rw [h2] at hempty
            exact Option.noConfusion hempty
          · exact List.not_mem_nil _ hmcr
  · split at hmep
    case isTrue hy =>
      rcases h3 : s.enPassantTarget with _ | ept
      · rw [h3] at hmep
        exact absurd hmep (List.not_mem_nil _)
      · rw [h3] at hmep
        dsimp only at hmep
        rcases List.mem_append.mp hmep with hA | hA <;>
          [rcases h4 : start.tryMove (-1) (-1) with e1 | e;
           rcases h4 : start.tryMove 1 (-1) with e1 | e] <;> rw [h4] at hA <;> dsimp only at hA
        · exact absurd hA (List.not_mem_nil _)
        · split at hA
          case isTrue heq =>
            obtain ⟨hs, he⟩ := registerPawnMove_mem hA
            obtain ⟨-, hey⟩ := Coordinate.tryMove_ok_iff.mp h4
            subst heq
            rw [he, hs]
            exact ⟨rfl, rfl, by omega⟩
          case isFalse => exact absurd hA (List.not_mem_nil _)
        · exact absurd hA (List.not_mem_nil _)
        · split at hA
          case isTrue heq =>
            obtain ⟨hs, he⟩ := registerPawnMove_mem hA
            obtain ⟨-, hey⟩ := Coordinate.tryMove_ok_iff.mp h4
            subst heq
            rw [he, hs]
            exact ⟨rfl, rfl, by omega⟩
          case isFalse => exact absurd hA (List.not_mem_nil _)
    case isFalse => exact absurd hmep (List.not_mem_nil _)

/-- Intersecting a castling-ability value with one of the four single
flags is nonempty exactly when that flag is set. -/
theorem inter_single_ne_empty (a : CastlingAbility) :
    (a.inter CastlingAbility.WHITE_KINGSIDE ≠ CastlingAbility.empty ↔
      a.whiteKingside = true) ∧
    (a.inter CastlingAbility.WHITE_QUEENSIDE ≠ CastlingAbility.empty ↔
      a.whiteQueenside = true) ∧
    (a.inter CastlingAbility.BLACK_KINGSIDE ≠ CastlingAbility.empty ↔
      a.blackKingside = true) ∧
    (a.inter CastlingAbility.BLACK_QUEENSIDE ≠ CastlingAbility.empty ↔
      a.blackQueenside = true) := by
  obtain ⟨k, q, bk, bq⟩ := a
  cases k <;> cases q <;> cases bk <;> cases bq <;> decide

/-- A pseudo-legal king move whose file changes by two is one of the
generated castling moves: same rank, no promotion, the corresponding
castling right is available, and the square the rook lands on is empty. -/
theorem kingMoves_castle_structure (s : State) (start : Coordinate) (color : Color) (lan : Lan)
    (hb : s.board start = some ⟨color, .king⟩)
    (hm : lan ∈ s.generatePseudoLegalKingMoves start)
    (hdx : (lan.endc.x : Int) - lan.start.x = 2 ∨ (lan.endc.x : Int) - lan.start.x = -2) :
    lan.start = start ∧ lan.promotion = none ∧ lan.endc.y = start.y ∧
    ∃ ability, s.castlingAbility = some ability ∧
      (((lan.endc.x : Int) - lan.start.x = 2 ∧
        ability.inter (kingSideOf color) ≠ CastlingAbility.empty ∧
        (∃ p, start.tryMove 1 0 = .ok p ∧ s.board p = none)) ∨
       ((lan.endc.x : Int) - lan.start.x = -2 ∧
        ability.inter (queenSideOf color) ≠ CastlingAbility.empty ∧
        (∃ pa, start.tryMove (-1) 0 = .ok pa ∧ s.board pa = none))) := by
  unfold State.generatePseudoLegalKingMoves at hm
  rw [hb] at hm
  dsimp only at hm
  rcases List.mem_append.mp hm with hmbase | hmc
  · exfalso
    rcases mem_foldl_append _ _ _ _ hmbase with h | ⟨o, ho, hlan⟩
    · exact List.not_mem_nil _ h
    · obtain ⟨e, he, rfl⟩ := tryRegisterMoveTo_mem hlan
      obtain ⟨hex, -⟩ := Coordinate.tryMove_ok_iff.mp he
      have ho1 : o.1 = 0 ∨ o.1 = 1 ∨ o.1 = -1 := by
        simp only [Board.kingOffsets, List.mem_cons, List.not_mem_nil, or_false] at ho
        rcases ho with rfl | rfl | rfl | rfl | rfl | rfl | rfl | rfl <;> simp
      dsimp only at hdx
      rcases hdx with h2 | h2 <;> rcases ho1 with h1 | h1 | h1 <;> omega
  · rcases h3 : s.castlingAbility with _ | ability
    · rw [h3] at hmc
      exact absurd hmc (List.not_mem_nil _)
    · rw [h3] at hmc
      dsimp only at hmc
      rcases List.mem_append.mp hmc with hK | hQ
      · split at hK
        case isFalse => exact absurd hK (List.not_mem_nil _)
        case isTrue hab =>
          rcases h4 : start.tryMove 1 0 with e1 | p <;>
            rcases h5 : start.tryMove 2 0 with e2 | e <;>
            rw [h4, h5] at hK <;> dsimp only at hK
          · exact absurd hK (List.not_mem_nil _)
          · exact absurd hK (List.not_mem_nil _)
          · exact absurd hK (List.not_mem_nil _)
          · split at hK
            case isFalse => exact absurd hK (List.not_mem_nil _)
            case isTrue hemp =>
              rw [List.mem_singleton] at hK
              subst hK
              obtain ⟨he2x, he2y⟩ := Coordinate.tryMove_ok_iff.mp h5
              refine ⟨rfl, rfl, ?_, ability, rfl, Or.inl ⟨by dsimp only; omega, hab,
                p, rfl, hemp.1⟩⟩
              dsimp only
              omega
      · split at hQ
        case isFalse => exact absurd hQ (List.not_mem_nil _)
        case isTrue hab =>
          rcases h4 : start.tryMove (-1) 0 with e1 | pa <;>
            rcases h5 : start.tryMove (-2) 0 with e2 | e <;>
            rcases h6 : start.tryMove (-3) 0 with e3 | pb <;>
            rw [h4, h5, h6] at hQ <;> dsimp only at hQ
          · exact absurd hQ (List.not_mem_nil _)
          · exact absurd hQ (List.not_mem_nil _)
          · exact absurd hQ (List.not_mem_nil _)
          · exact absurd hQ (List.not_mem_nil _)
          · exact absurd hQ (List.not_mem_nil _)
          · exact absurd hQ (List.not_mem_nil _)
          · exact absurd hQ (List.not_mem_nil _)
          · split at hQ
            case isFalse => exact absurd hQ (List.not_mem_nil _)
            case isTrue hemp =>
              rw [List.mem_singleton] at hQ
              subst hQ
              obtain ⟨he2x, he2y⟩ := Coordinate.tryMove_ok_iff.mp h5
              refine ⟨rfl, rfl, ?_, ability, rfl, Or.inr ⟨by dsimp only; omega, hab,
                pa, rfl, hemp.1⟩⟩
              dsimp only
              omega

/-- C1 (amended): for every position satisfying the standard invariants
(unique kings, castling rights imply home king and rook, en-passant target
backed by the opposing double-pushed pawn), applying `State::make_move` to
a move that the engine's own analysis lists as legal and then
`State::unmake_move` with the returned undoer restores the position
exactly — board, side to move, castling rights, en-passant target and both
clocks. Without the invariants the round trip can fail (see the
counterexample). -/
theorem claim_C1 (s : State) (lan : Lan) (s' : State) (u : StateUndoer) (l : List Lan)
    (hkings : kingsUnique s) (hcinv : castlingInvariant s) (hepinv : epInvariant s)
    (hl : (s.analyze s.sideToMove).moves lan.start = some l) (hml : lan ∈ l)
    (hmk : s.makeMove lan = .ok (s', u)) :
    s'.unmakeMove u = s := by
  obtain ⟨piece, hpiece, hcolor, hmem⟩ := analyze_mem_structure s s.sideToMove lan l hl hml
  obtain ⟨pc, pk⟩ := piece
  dsimp only at hcolor
  unfold State.makeMove at hmk
  dsimp only at hmk
  rw [hpiece] at hmk
  dsimp only at hmk
  rcases hbm : s.board.makeMove lan with err | mb
  · rw [hbm] at hmk
    exact absurd hmk (by simp)
  · obtain ⟨mu, b'⟩ := mb
    rw [hbm] at hmk
    dsimp only at hmk
    rw [Except.ok.injEq, Prod.mk.injEq] at hmk
    obtain ⟨hs', hu⟩ := hmk
    subst hs'
    subst hu
    have hboard : b'.unmakeMove mu = s.board := by
      apply Board.unmake_make s.board lan mu b' hbm
      · -- the en-passant capture square really holds the opposing pawn
        intro piece2 hpiece2 hkind2 hpromo2 hdx2 hempty2
        rw [hpiece, Option.some.injEq] at hpiece2
        subst hpiece2
        dsimp only at hkind2
        subst hkind2
        dsimp only at hmem
        cases pc
        · obtain ⟨hept, hlstart, hdy⟩ :=
            pawnMoves_structure_white s lan.start lan hpiece hmem hdx2 hempty2
          refine ⟨by omega, ?_⟩
          intro c hc
          rw [hdy, show ((-1 : Int)).sign = -1 from rfl] at hc
          obtain ⟨c0, hc0, hb0⟩ := hepinv lan.endc hept
          rw [← hcolor] at hc0 hb0
          dsimp only at hc0
          rw [hc, Except.ok.injEq] at hc0
          subst hc0
          exact hb0
        · obtain ⟨hept, hlstart, hdy⟩ :=
            pawnMoves_structure_black s lan.start lan hpiece hmem hdx2 hempty2
          refine ⟨by omega, ?_⟩
          intro c hc
          rw [hdy, show ((1 : Int)).sign = 1 from rfl] at hc
          obtain ⟨c0, hc0, hb0⟩ := hepinv lan.endc hept
          rw [← hcolor] at hc0 hb0
          dsimp only at hc0
          rw [hc, Except.ok.injEq] at hc0
          subst hc0
          exact hb0
      · -- castling happens in a proper configuration
        intro piece2 hpiece2 hkind2 hdx2
        rw [hpiece, Option.some.injEq] at hpiece2
        subst hpiece2
        dsimp only at hkind2
        subst hkind2
        dsimp only at hmem
        obtain ⟨-, hlp, hey, ability, hab, hside⟩ :=
          kingMoves_castle_structure s lan.start pc lan hpiece hmem hdx2
        have hcf := hcinv ability hab
        show castleConfig s.board pc lan
        rcases hside with ⟨hdxv, hflag, p, hp, hpnone⟩ | ⟨hdxv, hflag, pa, hpa, hpanone⟩
        · cases pc
          · -- white kingside castle: e1 → g1, rook h1 → f1
            replace hflag := ((inter_single_ne_empty ability).1).mp
              (by dsimp only [kingSideOf] at hflag; exact hflag)
            obtain ⟨hke, hrr⟩ := hcf.1 hflag
            have hst : lan.start = sq 60 := hkings lan.start (sq 60) .white hpiece hke
            have hex : lan.endc = sq 62 := by
              apply Coordinate.ext_xy
              · have h1 : ((sq 60 : Coordinate).x : Int) = 4 := rfl
                have h2 : (sq 62 : Coordinate).x = 6 := rfl
                rw [hst] at hdxv
                omega
              · rw [hst] at hey
                rw [hey]
                rfl
            have hp61 : p = sq 61 := by
              rw [hst] at hp
              rw [show (sq 60 : Coordinate).tryMove 1 0 = Except.ok (sq 61) from rfl,
                Except.ok.injEq] at hp
              exact hp.symm
            subst hp61
            unfold castleConfig
            rw [hst, hex]
            dsimp only
            exact ⟨hrr, hpnone, by decide, by decide, by decide, by decide, by decide,
              by decide⟩
          · -- black kingside castle: e8 → g8, rook h8 → f8
            replace hflag := ((inter_single_ne_empty ability).2.2.1).mp
              (by dsimp only [kingSideOf] at hflag; exact hflag)
            obtain ⟨hke, hrr⟩ := hcf.2.2.1 hflag
            have hst : lan.start = sq 4 := hkings lan.start (sq 4) .black hpiece hke
            have hex : lan.endc = sq 6 := by
              apply Coordinate.ext_xy
              · have h1 : ((sq 4 : Coordinate).x : Int) = 4 := rfl
                have h2 : (sq 6 : Coordinate).x = 6 := rfl
                rw [hst] at hdxv
                omega
              · rw [hst] at hey
                rw [hey]
                rfl
            have hp5 : p = sq 5 := by
              rw [hst] at hp
              rw [show (sq 4 : Coordinate).tryMove 1 0 = Except.ok (sq 5) from rfl,
                Except.ok.injEq] at hp
              exact hp.symm
            subst hp5
            unfold castleConfig
            rw [hst, hex]
            dsimp only
            exact ⟨hrr, hpnone, by decide, by decide, by decide, by decide, by decide,
              by decide⟩
        · cases pc
          · -- white queenside castle: e1 → c1, rook a1 → d1
            replace hflag := ((inter_single_ne_empty ability).2.1).mp
              (by dsimp only [queenSideOf] at hflag; exact hflag)
            obtain ⟨hke, hrr⟩ := hcf.2.1 hflag
            have hst : lan.start = sq 60 := hkings lan.start (sq 60) .white hpiece hke
            have hex : lan.endc = sq 58 := by
              apply Coordinate.ext_xy
              · have h1 : ((sq 60 : Coordinate).x : Int) = 4 := rfl
                have h2 : (sq 58 : Coordinate).x = 2 := rfl
                rw [hst] at hdxv
                omega
              · rw [hst] at hey
                rw [hey]
                rfl
            have hp59 : pa = sq 59 := by
              rw [hst] at hpa
              rw [show (sq 60 : Coordinate).tryMove (-1) 0 = Except.ok (sq 59) from rfl,
                Except.ok.injEq] at hpa
              exact hpa.symm
            subst hp59
            unfold castleConfig
            rw [hst, hex]
            dsimp only
            exact ⟨hrr, hpanone, by decide, by decide, by decide, by decide, by decide,
              by decide⟩
          · -- black queenside castle: e8 → c8, rook a8 → d8
            replace hflag := ((inter_single_ne_empty ability).2.2.2).mp
              (by dsimp only [queenSideOf] at hflag; exact hflag)
            obtain ⟨hke, hrr⟩ := hcf.2.2.2 hflag
            have hst : lan.start = sq 4 := hkings lan.start (sq 4) .black hpiece hke
            have hex : lan.endc = sq 2 := by
              apply Coordinate.ext_xy
              · have h1 : ((sq 4 : Coordinate).x : Int) = 4 := rfl
                have h2 : (sq 2 : Coordinate).x = 2 := rfl
                rw [hst] at hdxv
                omega
              · rw [hst] at hey
                rw [hey]
                rfl
            have hp3 : pa = sq 3 := by
              rw [hst] at hpa
              rw [show (sq 4 : Coordinate).tryMove (-1) 0 = Except.ok (sq 3) from rfl,
                Except.ok.injEq] at hpa
              exact hpa.symm
            subst hp3
            unfold castleConfig
            rw [hst, hex]
            dsimp only
            exact ⟨hrr, hpanone, by decide, by decide, by decide, by decide, by decide,
              by decide⟩
    unfold State.unmakeMove
    dsimp only
    rw [hboard, Color.opponent_opponent]
    by_cases hblack : s.sideToMove = .black
    · rw [if_pos hblack, if_pos hblack, Nat.add_sub_cancel]
    · rw [if_neg hblack, if_neg hblack]

/-- FEN-equivalent `4k3/8/8/8/3p4/8/8/4K3 b - e3 0 1`: the en-passant
target e3 is a ghost — no white pawn ever double-pushed to e4. -/
def c1Board : Board := fun c =>
  if c = sq 4 then some ⟨.black, .king⟩
  else if c = sq 60 then some ⟨.white, .king⟩
  else if c = sq 35 then some ⟨.black, .pawn⟩
  else none

def c1State : State :=
  { board := c1Board, sideToMove := .black, castlingAbility := none,
    enPassantTarget := some (sq 44), halfMoves := 0, fullMoves := 1 }

def d4e3 : Lan := ⟨sq 35, sq 44, none⟩

def c1Fallback : StateUndoer := ⟨⟨⟨sq 0, sq 0, none⟩, none, none⟩, none, none, 0⟩

def c1Moves : List Lan := ((c1State.analyze .black).moves (sq 35)).getD []

def c1Res : State × StateUndoer := (c1State.makeMove d4e3).toOption.getD (c1State, c1Fallback)

/-- C1 counterexample: in the ghost-en-passant position the capture d4e3
is listed as legal and `make_move` succeeds, but unmaking it materializes
a white pawn on e4 that was never there, so the round trip does not
restore the position. This is why the amended claim assumes the
en-passant invariant. -/
theorem claim_C1_counterexample :
    (c1State.analyze c1State.sideToMove).moves d4e3.start = some c1Moves ∧
    d4e3 ∈ c1Moves ∧
    c1State.makeMove d4e3 = .ok (c1Res.1, c1Res.2) ∧
    c1State.board (sq 36) = none ∧
    (c1Res.1.unmakeMove c1Res.2).board (sq 36) = some ⟨.white, .pawn⟩ ∧
    c1Res.1.unmakeMove c1Res.2 ≠ c1State := by
  decide

/-- A small invariant-satisfying position: kings e1/e8, white pawn e2. -/
def c1wBoard : Board := fun c =>
  if c = sq 60 then some ⟨.white, .king⟩
  else if c = sq 4 then some ⟨.black, .king⟩
  else if c = sq 52 then some ⟨.white, .pawn⟩
  else none

def c1wState : State :=
  { board := c1wBoard, sideToMove := .white, castlingAbility := none,
    enPassantTarget := none, halfMoves := 0, fullMoves := 1 }

def c1wLan : Lan := ⟨sq 52, sq 36, none⟩

def c1wMoves : List Lan := ((c1wState.analyze .white).moves (sq 52)).getD []

def c1wRes : State × StateUndoer :=
  (c1wState.makeMove c1wLan).toOption.getD (c1wState, c1Fallback)

set_option maxRecDepth 40000 in
/-- C1 witness: the double push e2e4 from the small position is legal and
its make/unmake round trip restores the position exactly. -/
theorem claim_C1_witness : c1wRes.1.unmakeMove c1wRes.2 = c1wState :=
  claim_C1 c1wState c1wLan c1wRes.1 c1wRes.2 c1wMoves
    (by unfold kingsUnique; intro c1 c2 color; revert c1 c2; cases color <;> decide)
    (by intro ability hab; exact Option.noConfusion hab)
    (by intro t ht; exact Option.noConfusion ht)
    (by decide) (by decide) (by decide)

end Chess
